import Mathlib

/-!
Verification of the cache / version-metadata / delta-replay core of the
`osm-borders` repository (`src/converters/tools.py`, `src/converters/teryt.py`)
against its natural-language specification.

The Python sources are shallowly embedded: dynamically typed Python values are
modelled by `PyVal`, Python dictionaries by ordered association lists (`Dct`),
Python exceptions by the `PyErr` error type threaded through `Except`, and the
order-preserving mutation of Python `dict`s / shelve tables by the `dictSet`,
`dictEraseKey` and `List.lookup` operations.  Byte payloads produced by the
serializer layer are modelled opaquely by `PyBytes` (empty = falsy bytes,
`payload d` = a non-empty serialization of the dictionary `d`); the generated
protobuf codec (`teryt_pb2`, absent from the sources) is modelled from the
spec as a codec that round-trips dictionaries.
-/

/-- A dynamically typed Python value as used by the converter code:
`None`, a string, or an integer. -/
inductive PyVal where
  | none
  | str (s : String)
  | int (n : Int)
  deriving DecidableEq, Repr

/-- Python truthiness for `PyVal`: `None`, `""` and `0` are falsy. -/
def PyVal.truthy : PyVal → Bool
  | .none => false
  | .str s => !(s == "")
  | .int n => !(n == 0)

/-- Rendering of a `PyVal` used when a value is interpolated into an error
message (e.g. the key of a `KeyError`). -/
def PyVal.render : PyVal → String
  | .none => "None"
  | .str s => s
  | .int n => toString n

/-- A Python exception, as raised by the embedded code. -/
inductive PyErr where
  | typeError
  | keyError (k : String)
  | valueError (msg : String)
  | attributeError (msg : String)
  | nameError
  | assertionError
  | indexError (msg : String)
  | cacheNotReady (name : String)
  | cacheExpired (name : String) (stored : PyVal) (requested : Int)
  deriving DecidableEq, Repr

/-- A Python `dict` with string keys, in insertion order. -/
abbrev Dct := List (String × PyVal)

/-- First-match association lookup: the value stored under `k`, i.e. Python
`d[k]` viewed as a partial operation.  (Keys of a Python `dict` are unique, so
first-match lookup agrees with `dict` access.) -/
def dictGet {κ ν : Type} [DecidableEq κ] : List (κ × ν) → κ → Option ν
  | [], _ => Option.none
  | (k', v') :: rest, k => if k' = k then some v' else dictGet rest k

/-- `dct.get(k)` — Python `dict.get` with the implicit `None` default. -/
def Dct.get (d : Dct) (k : String) : PyVal :=
  (dictGet d k).getD .none

/-- `dct.get(k, default)` — Python `dict.get` with an explicit default. -/
def Dct.getD (d : Dct) (k : String) (v : PyVal) : PyVal :=
  (dictGet d k).getD v

/-- `dct[k]` — Python subscript access; raises `KeyError` when absent. -/
def Dct.getItem (d : Dct) (k : String) : Except PyErr PyVal :=
  match dictGet d k with
  | some v => .ok v
  | Option.none => .error (.keyError k)

/-- `k in dct` — Python key-membership test. -/
def Dct.hasKey (d : Dct) (k : String) : Bool :=
  (dictGet d k).isSome

/-- `d[k] = v` on a Python `dict` (or a shelve table): replaces the value in
place when the key is present (keeping its position in insertion order) and
appends the pair otherwise. -/
def dictSet {κ ν : Type} [DecidableEq κ] : List (κ × ν) → κ → ν → List (κ × ν)
  | [], k, v => [(k, v)]
  | (k', v') :: rest, k, v =>
      if k' = k then (k, v) :: rest else (k', v') :: dictSet rest k v

/-- `del d[k]` on a Python `dict`, viewed as removing every pair stored under
`k` (keys of a Python `dict` are unique, so on well-formed states this is the
deletion of the single entry). -/
def dictEraseKey {κ ν : Type} [DecidableEq κ] (l : List (κ × ν)) (k : κ) :
    List (κ × ν) :=
  l.filter (fun p => !(p.1 = k : Bool))

/-!
### Storage layer (`src/converters/tools.py`)

A storage table (`shelve` file or DynamoDB table) maps string keys to byte
payloads.  Byte strings are opaque to this layer; the only observable property
the code uses is Python truthiness (`b""` is falsy), so a payload is modelled
as either `empty` (falsy bytes) or `payload d`, the serialization of the
dictionary `d` by the table's serializer (a non-empty byte string).
-/

/-- A serialized byte payload, as stored in a table. -/
inductive PyBytes where
  | empty
  | payload (d : Dct)
  deriving DecidableEq, Repr

/-- Python truthiness of a byte string: only `b""` is falsy. -/
def PyBytes.truthy : PyBytes → Bool
  | .empty => false
  | .payload _ => true

/-- The contents of one storage table: serialized records in insertion order. -/
abbrev Store := List (String × PyBytes)

/-- `serializer.serialize(dct)`: the codec internals are out of scope
(spec §1); serializing a dictionary yields a non-empty byte string that
deserializes back to it. -/
def Serializer.serialize (d : Dct) : PyBytes := .payload d

/-- `serializer.deserialize(data)`.  Deserializing empty bytes fails; the
call sites below only deserialize payloads that passed a truthiness check. -/
def Serializer.deserialize : PyBytes → Except PyErr Dct
  | .empty => .error (.valueError "no data to decode")
  | .payload d => .ok d

/-- `ShelveCache.get(name, default)` (tools.py:100-106):
`ret = self.shelve.get(name)`; if `ret` is truthy, return the deserialized
record; if `ret` is falsy and `default` is truthy, return the default;
otherwise return `None`.  The Python default parameter is `None`; a caller
passing `{}` passes `some []`, which is a *falsy* default. -/
def ShelveCache.get (store : Store) (name : String) (default : Option Dct) :
    Option Dct :=
  match dictGet store name with
  | some (.payload d) => some d
  | _ =>
      match default with
      | some d => if d.isEmpty then Option.none else some d
      | Option.none => Option.none

/-- `ShelveCache.add(name, value)` (tools.py:108-109):
`self.shelve[name] = self.serializer.serialize(value)`. -/
def ShelveCache.add (store : Store) (name : String) (value : Dct) : Store :=
  dictSet store name (Serializer.serialize value)

/-- `ShelveCache.delete(name)` (tools.py:111-112): `del self.shelve[name]`,
raising `KeyError` when the key is absent. -/
def ShelveCache.delete (store : Store) (name : String) :
    Except PyErr Store :=
  match dictGet store name with
  | some _ => .ok (dictEraseKey store name)
  | Option.none => .error (.keyError name)

/-- The value of the expression `self.shelve.keys()` — the keys currently
present in the table. -/
def ShelveCache.keysExpr (store : Store) : List String :=
  store.map Prod.fst

/-- `ShelveCache.keys()` (tools.py:114-115): the body evaluates
`self.shelve.keys()` but has no `return` statement, so the method discards
the computed view and returns `None`. -/
def ShelveCache.keys (store : Store) : Option (List String) :=
  let _ := ShelveCache.keysExpr store
  Option.none

/-- `DynamoCache.get(name, default)` (tools.py:146-159): fetch the item; when
present, extract the stored bytes and return the deserialized record if the
bytes are truthy; otherwise fall through to `if default: return default` and
`return None`. -/
def DynamoCache.get (store : Store) (name : String) (default : Option Dct) :
    Option Dct :=
  match dictGet store name with
  | some (.payload d) => some d
  | _ =>
      match default with
      | some d => if d.isEmpty then Option.none else some d
      | Option.none => Option.none

/-- `DynamoCache.keys()` (tools.py:207-214): a table scan projecting the key
attribute — it returns the sequence of keys present in the table. -/
def DynamoCache.keys (store : Store) : Option (List String) :=
  some (store.map Prod.fst)

/-!
### Cache manager (`src/converters/tools.py`, class `CacheManager`)

The manager owns the reserved `meta` table (status/version records serialized
per cache name) and hands out tables through the storage driver.  `tables`
lists the names for which a driver table exists (`shelve.open(..., flag='w')`
succeeds); `get_table` on a missing name raises `CacheNotInitialized`.
-/

structure CacheManager where
  meta : Store
  tables : List String
  deriving DecidableEq, Repr

/-- `ShelveCacheDriver.get_table(name)` (tools.py:123-128): open the existing
table, raising `CacheNotInitialized` when there is no such table. -/
def CacheManager.get_table (m : CacheManager) (name : String) :
    Except PyErr String :=
  if name ∈ m.tables then .ok name else .error (.cacheNotReady name)

/-- `cache['version'] >= version` on a metadata record: an integer comparison,
raising `TypeError` when the stored value is not an integer. -/
def pyGeInt (stored : PyVal) (v : Int) : Except PyErr Bool :=
  match stored with
  | .int n => .ok (v ≤ n)
  | _ => .error .typeError

/-- `CacheManager.get_cache(name, version)` (tools.py:264-282).
Raises `ValueError` for the reserved name `meta`; reads the metadata record
with `self.meta.get(name)`; `if not cache` (absent, or a falsy record) raises
`CacheNotInitialized`; a status other than `'ready'` raises
`CacheNotInitialized`; `if (version and cache['version'] >= version) or not
version` returns the driver table (note: a requested version of `0` is falsy
and disables the staleness check); otherwise raises `CacheExpired`.
The serializer argument is irrelevant here and elided. -/
def CacheManager.get_cache (m : CacheManager) (name : String)
    (version : Option Int) : Except PyErr String :=
  if name = "meta" then .error (.valueError "Forbidden cache name: meta")
  else
    match ShelveCache.get m.meta name Option.none with
    | Option.none => .error (.cacheNotReady name)
    | some cache =>
      if cache.isEmpty then .error (.cacheNotReady name)
      else do
        let status ← Dct.getItem cache "status"
        if status ≠ .str "ready" then throw (.cacheNotReady name)
        else
          match version with
          | Option.none => m.get_table name
          | some v =>
            if v = 0 then m.get_table name
            else do
              let sv ← Dct.getItem cache "version"
              let ge ← pyGeInt sv v
              if ge then m.get_table name
              else throw (.cacheExpired name sv v)

/-- `CacheManager.create_cache(name)` (tools.py:284-292): forbids `meta`,
writes `{status: creating, updated: 0}` to the metadata and recreates the
driver table empty. -/
def CacheManager.create_cache (m : CacheManager) (name : String) :
    Except PyErr CacheManager :=
  if name = "meta" then .error (.valueError "Forbidden cache name: meta")
  else
    .ok { m with
          meta := ShelveCache.add m.meta name
            [("status", .str "creating"), ("updated", .int 0)],
          tables := if name ∈ m.tables then m.tables else m.tables ++ [name] }

/-- `CacheManager.mark_ready(name, version)` (tools.py:294-299): reads the
metadata record (`None.__setitem__` raises when it is absent), sets
`status = ready`, `updated = now`, `version`, and writes it back.  `now` is
passed explicitly since the wall clock is outside the model. -/
def CacheManager.mark_ready (m : CacheManager) (name : String)
    (version : Int) (now : Int) : Except PyErr CacheManager :=
  match ShelveCache.get m.meta name Option.none with
  | Option.none => .error (.typeError)
  | some desc =>
      let desc := dictSet desc "status" (.str "ready")
      let desc := dictSet desc "updated" (.int now)
      let desc := dictSet desc "version" (.int version)
      .ok { m with meta := ShelveCache.add m.meta name desc }

/-- `CacheManager.version(name)` (tools.py:301-302):
`self.meta.get(name, {}).get('version', -1)`.  The `{}` default is falsy, so
`ShelveCache.get` ignores it and yields `None` for an unknown name, and the
subsequent `.get('version', -1)` is an attribute access on `None`. -/
def CacheManager.version (m : CacheManager) (name : String) :
    Except PyErr PyVal :=
  match ShelveCache.get m.meta name (some []) with
  | Option.none =>
      .error (.attributeError "NoneType object has no attribute get")
  | some d => .ok (Dct.getD d "version" (.int (-1)))

/-!
### Entity models (`src/converters/teryt.py`)
-/

/-!
#### Python string primitives

The embedding works on the character sequences of strings; the case mappings
cover ASCII and the Polish diacritics appearing in the catalogs.
-/

def pyUpperChar (c : Char) : Char :=
  if 97 ≤ c.toNat ∧ c.toNat ≤ 122 then Char.ofNat (c.toNat - 32)
  else match c with
    | 'ą' => 'Ą'
    | 'ć' => 'Ć'
    | 'ę' => 'Ę'
    | 'ł' => 'Ł'
    | 'ń' => 'Ń'
    | 'ó' => 'Ó'
    | 'ś' => 'Ś'
    | 'ź' => 'Ź'
    | 'ż' => 'Ż'
    | c => c

def pyLowerChar (c : Char) : Char :=
  if 65 ≤ c.toNat ∧ c.toNat ≤ 90 then Char.ofNat (c.toNat + 32)
  else match c with
    | 'Ą' => 'ą'
    | 'Ć' => 'ć'
    | 'Ę' => 'ę'
    | 'Ł' => 'ł'
    | 'Ń' => 'ń'
    | 'Ó' => 'ó'
    | 'Ś' => 'ś'
    | 'Ź' => 'ź'
    | 'Ż' => 'ż'
    | c => c

/-- `s.upper()`. -/
def pyUpper (s : String) : String := String.mk (s.data.map pyUpperChar)

/-- `s.casefold()`, modelled as lower-casing (adequate for the alphabets in
play). -/
def pyLower (s : String) : String := String.mk (s.data.map pyLowerChar)

def pySpaceChar (c : Char) : Bool :=
  c = ' ' || c = '\t' || c = '\n' || c = '\r'

/-- `s.strip()`. -/
def pyTrim (s : String) : String :=
  String.mk (((s.data.dropWhile pySpaceChar).reverse.dropWhile
    pySpaceChar).reverse)

def startsWithChars : List Char → List Char → Bool
  | [], _ => true
  | _ :: _, [] => false
  | p :: ps, c :: cs => p = c && startsWithChars ps cs

/-- `s.startswith(pat)`. -/
def pyStartsWith (s pat : String) : Bool :=
  startsWithChars pat.data s.data

/-- `s[n:]` — dropping `n` codepoints. -/
def pyDrop (s : String) (n : Nat) : String := String.mk (s.data.drop n)

def digitsToNatAux : List Char → Nat → Option Nat
  | [], acc => some acc
  | c :: rest, acc =>
      if c.isDigit then digitsToNatAux rest (acc * 10 + (c.toNat - 48))
      else Option.none

def digitsToNat : List Char → Option Nat
  | [] => Option.none
  | l => digitsToNatAux l 0

/-- The numeric parse performed by `int(s)` on a string. -/
def pyParseInt (s : String) : Option Int :=
  match (pyTrim s).data with
  | '-' :: rest => (digitsToNat rest).map (fun n => -(n : Int))
  | l => (digitsToNat l).map (fun n => (n : Int))

/-- `nvl(obj, substitute)` (teryt.py:72-75). -/
def nvl (obj substitute : PyVal) : PyVal :=
  match obj with
  | .none => substitute
  | v => v

/-- `int(x)` — Python integer conversion: identity on integers, numeric parse
on strings (`ValueError` otherwise), `TypeError` on `None`. -/
def pyInt : PyVal → Except PyErr Int
  | .str s =>
      match pyParseInt s with
      | some n => .ok n
      | Option.none => .error (.valueError "invalid literal for int")
  | .int n => .ok n
  | .none => .error .typeError

/-- String concatenation `a + b + c + d` as used for the `terc` code: every
operand must be a string (`None` or other types raise `TypeError`; the record
dictionaries only ever carry strings or `None` here). -/
def pyConcat4 (a b c d : PyVal) : Except PyErr String :=
  match a, b, c, d with
  | .str sa, .str sb, .str sc, .str sd => .ok (sa ++ sb ++ sc ++ sd)
  | _, _, _, _ => .error .typeError

/-- `"".join(...)` over already-filtered parts: every part must be a string. -/
def pyStrJoin : List PyVal → Except PyErr String
  | [] => .ok ""
  | .str s :: rest => do
      let r ← pyStrJoin rest
      .ok (s ++ r)
  | _ :: _ => .error .typeError

/-!
#### `SimcEntry` — locality records
-/

structure SimcEntry where
  terc : PyVal
  rm_id : PyVal
  nazwa : PyVal
  sym : PyVal
  parent : PyVal
  deriving DecidableEq, Repr

/-- `SimcEntry.update_from(new)` (teryt.py:322-326): overwrite each of
`terc`, `rm_id`, `nazwa`, `sym`, `parent` with `new.get(attr)` when that
value is truthy. -/
def SimcEntry.update_from (e : SimcEntry) (new : Dct) : SimcEntry :=
  let e := if (Dct.get new "terc").truthy then { e with terc := Dct.get new "terc" } else e
  let e := if (Dct.get new "rm_id").truthy then { e with rm_id := Dct.get new "rm_id" } else e
  let e := if (Dct.get new "nazwa").truthy then { e with nazwa := Dct.get new "nazwa" } else e
  let e := if (Dct.get new "sym").truthy then { e with sym := Dct.get new "sym" } else e
  let e := if (Dct.get new "parent").truthy then { e with parent := Dct.get new "parent" } else e
  e

/-- `SimcEntry.to_dict()` (teryt.py:266-275): numeric fields are passed
through `int(...)`; `parent` is included only when truthy. -/
def SimcEntry.to_dict (e : SimcEntry) : Except PyErr Dct := do
  let t ← pyInt e.terc
  let r ← pyInt e.rm_id
  let s ← pyInt e.sym
  let base : Dct :=
    [("terc", .int t), ("rm", .int r), ("nazwa", e.nazwa), ("sym", .int s)]
  if e.parent.truthy then do
    let p ← pyInt e.parent
    pure (base ++ [("parent", .int p)])
  else
    pure base

/-- `SimcEntry.from_dict(dct)` (teryt.py:277-285): `terc`, `nazwa` and `sym`
by subscript (`KeyError` when absent), `rm` with default `0`, `parent` only
when the key is present. -/
def SimcEntry.from_dict (dct : Dct) : Except PyErr SimcEntry := do
  let t ← Dct.getItem dct "terc"
  let n ← Dct.getItem dct "nazwa"
  let s ← Dct.getItem dct "sym"
  pure { terc := t
         rm_id := Dct.getD dct "rm" (.int 0)
         nazwa := n
         sym := s
         parent := if Dct.hasKey dct "parent" then Dct.get dct "parent" else .none }

/-!
#### `TercEntry` — administrative-unit records

`TercEntry.update_from` iterates over the attribute names
`('woj', 'pow', 'rodz', 'nazwadod', 'nazwa')`, but the constructor stores the
county segment under the attribute `powiat`, not `pow`; `setattr(self, 'pow',
v)` therefore creates an unrelated attribute that no other code reads.  It is
modelled by the otherwise-unused field `pow_attr`.
-/

structure TercEntry where
  woj : PyVal
  powiat : PyVal
  gmi : PyVal
  rodz : PyVal
  nazwadod : PyVal
  nazwa : PyVal
  pow_attr : PyVal
  deriving DecidableEq, Repr

/-- `TercEntry.__init__(dct)` (teryt.py:157-163). -/
def TercEntry.init (dct : Dct) : TercEntry :=
  { woj := Dct.get dct "woj"
    powiat := Dct.get dct "pow"
    gmi := Dct.get dct "gmi"
    rodz := Dct.get dct "rodz"
    nazwadod := nvl (Dct.get dct "nazwadod") (.str "")
    nazwa := Dct.get dct "nazwa"
    pow_attr := .none }

/-- The `terc` property (teryt.py:187-191): join the truthy segments of
`(woj, powiat)`, extended with `(gmi, rodz)` when `gmi` is truthy. -/
def TercEntry.terc (e : TercEntry) : Except PyErr String :=
  pyStrJoin
    (([e.woj, e.powiat] ++ (if e.gmi.truthy then [e.gmi, e.rodz] else [])).filter
      PyVal.truthy)

/-- `TercEntry.update_from(other)` (teryt.py:165-169): overwrite with each
truthy value of `('woj', 'pow', 'rodz', 'nazwadod', 'nazwa')` — `'pow'`
lands in the dead attribute (see above) and `gmi` is not in the list. -/
def TercEntry.update_from (e : TercEntry) (other : Dct) : TercEntry :=
  let e := if (Dct.get other "woj").truthy then { e with woj := Dct.get other "woj" } else e
  let e := if (Dct.get other "pow").truthy then { e with pow_attr := Dct.get other "pow" } else e
  let e := if (Dct.get other "rodz").truthy then { e with rodz := Dct.get other "rodz" } else e
  let e := if (Dct.get other "nazwadod").truthy then { e with nazwadod := Dct.get other "nazwadod" } else e
  let e := if (Dct.get other "nazwa").truthy then { e with nazwa := Dct.get other "nazwa" } else e
  e

/-- `TercEntry.to_dict()` (teryt.py:217-228). -/
def TercEntry.to_dict (e : TercEntry) : Except PyErr Dct := do
  let w ← pyInt e.woj
  let base : Dct := [("woj", .int w), ("nazwadod", e.nazwadod), ("nazwa", e.nazwa)]
  let base ← if e.powiat.truthy then do
      let p ← pyInt e.powiat
      pure (base ++ [("powiat", .int p)])
    else pure base
  if e.gmi.truthy then do
    let g ← pyInt e.gmi
    let r ← pyInt e.rodz
    pure (base ++ [("gmi", .int g), ("rodz", .int r)])
  else pure base

/-- The parameter list of `TercEntry.__init__`: one positional dictionary. -/
def TercEntry.initParams : List String := ["dct"]

/-- Keyword binding of a Python call: every keyword must name a declared
parameter, otherwise the call raises `TypeError` before the body runs. -/
def kwargsAccepted (params : List String) (kwargs : List String) : Bool :=
  kwargs.all (fun k => params.contains k)

/-- `TercEntry.from_dict(dct)` (teryt.py:230-239): builds a keyword
dictionary (subscript accesses first — `KeyError` when a key is absent) and
calls `TercEntry(**kwargs)`.  `TercEntry.__init__` declares the single
positional parameter `dct` and no parameter named `woj`, `powiat`, `gmi`,
`rodz`, `nazwadod` or `nazwa`, so the keyword expansion always raises
`TypeError`. -/
def TercEntry.from_dict (dct : Dct) : Except PyErr TercEntry := do
  let w ← Dct.getItem dct "woj"
  let p ← Dct.getItem dct "powiat"
  let g ← Dct.getItem dct "gmi"
  let r ← Dct.getItem dct "rodz"
  let nd ← Dct.getItem dct "nazwadod"
  let n ← Dct.getItem dct "nazwa"
  let kwargs : Dct :=
    [("woj", w),
     ("powiat", if p.truthy then p else .str ""),
     ("gmi", if g.truthy then g else .str ""),
     ("rodz", if r.truthy then r else .str ""),
     ("nazwadod", nd),
     ("nazwa", n)]
  if kwargsAccepted TercEntry.initParams (kwargs.map Prod.fst) then
    pure (TercEntry.init kwargs)
  else
    throw .typeError

/-!
#### `UlicEntry` / `UlicMultiEntry` — street records and aggregates
-/

/-- `_ULIC_CECHA_MAPPING` (teryt.py:123-139). -/
def ulicCechaMapping : List (String × String) :=
  [("UL.", "Ulica"), ("AL.", "Aleja"), ("PL.", "Plac"), ("SKWER", "Skwer"),
   ("BULW.", "Bulwar"), ("RONDO", "Rondo"), ("PARK", "Park"),
   ("RYNEK", "Rynek"), ("SZOSA", "Szosa"), ("DROGA", "Droga"),
   ("OS.", "Osiedle"), ("OGRÓD", "Ogród"), ("WYSPA", "Wyspa"),
   ("WYB.", "Wybrzeże"), ("INNE", "")]

/-- `_ULIC_CECHA_MAPPING[cecha.upper()]` — subscript lookup, `KeyError` on an
unknown qualifier code. -/
def cechaBracket (cecha : String) : Except PyErr String :=
  match dictGet ulicCechaMapping (pyUpper cecha) with
  | some v => .ok v
  | Option.none => .error (.keyError (pyUpper cecha))

/-- The inner `mapper` of `_clean_street_name` (teryt.py:335-340), applied to
one name part.  `casefold` is modelled by `toLower` (adequate for the
alphabets appearing in the qualifier table).  A falsy name skips both prefix
tests; a truthy non-string would fail its `casefold` attribute access. -/
def cechaMapper (cecha : String) (name : PyVal) : Except PyErr PyVal :=
  match name with
  | .str s =>
      if s ≠ "" ∧ pyStartsWith (pyLower s) (pyLower cecha) then
        .ok (.str (pyTrim (pyDrop s cecha.length)))
      else if s = "" then
        .ok (.str (pyTrim s))
      else do
        let mapped ← cechaBracket cecha
        if pyStartsWith (pyLower s) (pyLower mapped) then
          .ok (.str (pyTrim (pyDrop s mapped.length)))
        else
          .ok (.str (pyTrim s))
  | .none => .ok .none
  | .int n =>
      if n = 0 then .ok (.int 0) else .error (.attributeError "casefold")

/-- `_clean_street_name(cecha, nazwa1, nazwa2)` (teryt.py:334-346). -/
def clean_street_name (cecha nazwa1 nazwa2 : PyVal) :
    Except PyErr String := do
  let cechaS ← match cecha with
    | .str s => Except.ok s
    | _ => Except.error (.attributeError "casefold")
  let n1 ← cechaMapper cechaS nazwa1
  let n2 ← cechaMapper cechaS nazwa2
  if !n1.truthy && !n2.truthy then
    pure ""
  else
    let mapped : PyVal :=
      match dictGet ulicCechaMapping (pyUpper cechaS) with
      | some v => .str v
      | Option.none => .none
    let parts := ([mapped, n1, n2].filter PyVal.truthy)
    match parts.mapM (fun p => match p with | .str s => some s | _ => Option.none) with
    | some strs => pure (String.intercalate " " strs)
    | Option.none => throw .typeError

/--
A street record.  `update_from` iterates over the attribute names
`('sym', 'sym_ul', 'cecha', 'nazwa_1', 'nazwa_2')`; the constructor stores
the street symbol under the attribute `symul`, not `sym_ul`, so
`setattr(self, 'sym_ul', v)` creates an unrelated attribute that no other
code reads — modelled by the otherwise-unused field `sym_ul_attr`.
(`cecha` is a read-only property, so assigning it raises.)
-/
structure UlicEntry where
  sym : PyVal
  symul : PyVal
  cecha_orig : PyVal
  nazwa_1 : PyVal
  nazwa_2 : PyVal
  terc : PyVal
  sym_ul_attr : PyVal
  deriving DecidableEq, Repr

/-- `UlicEntry.__init__(dct)` (teryt.py:364-373). -/
def UlicEntry.init (dct : Dct) : Except PyErr UlicEntry := do
  let t ← pyConcat4 (Dct.get dct "woj") (Dct.get dct "pow")
      (Dct.get dct "gmi") (Dct.get dct "rodz_gmi")
  pure { sym := Dct.get dct "sym"
         symul := Dct.get dct "sym_ul"
         cecha_orig := Dct.get dct "cecha"
         nazwa_1 := nvl (Dct.get dct "nazwa_1") (.str "")
         nazwa_2 := nvl (Dct.get dct "nazwa_2") (.str "")
         terc := .str t
         sym_ul_attr := .none }

/-- `UlicEntry._update_to_init_map` (teryt.py:350-362, inverted): renames the
keys of an update-record dictionary to constructor attribute names. -/
def ulicUpdateToInitMap : List (String × String) :=
  [("woj", "woj"), ("pow", "pow"), ("gmi", "gmi"), ("rodz", "rodz_gmi"),
   ("identyfikatormiejscowosci", "sym"), ("identyfikatornazwyulicy", "sym_ul"),
   ("cecha", "cecha"), ("nazwa1", "nazwa_1"), ("nazwa2", "nazwa_2"),
   ("stan", "stan_na")]

/-- `dict((UlicEntry._update_to_init_map.get(k, k), v) for (k, v) in ...)`. -/
def remapUpdate (d : Dct) : Dct :=
  d.map (fun p => ((dictGet ulicUpdateToInitMap p.1).getD p.1, p.2))

/-- `UlicEntry.from_update(dct)` (teryt.py:420-428); the `print` diagnostic
is elided. -/
def UlicEntry.from_update (dct : Dct) : Except PyErr UlicEntry :=
  UlicEntry.init (remapUpdate dct)

/-- The `cecha` property (teryt.py:469-471). -/
def UlicEntry.cecha (e : UlicEntry) : Except PyErr String :=
  match e.cecha_orig with
  | .str s => cechaBracket s
  | _ => .error (.attributeError "upper")

/-- The `nazwa` property (teryt.py:465-467) — note the argument order:
`_clean_street_name(self.cecha_orig, self.nazwa_2, self.nazwa_1)`. -/
def UlicEntry.nazwa (e : UlicEntry) : Except PyErr String :=
  clean_street_name e.cecha_orig e.nazwa_2 e.nazwa_1

/-- `UlicEntry.update_from(obj)` (teryt.py:384-393).  In attribute order:
`sym` is stored, `sym_ul` lands in the dead attribute, a truthy `cecha`
raises (`cecha` is a getter-only property), `nazwa_1`/`nazwa_2` are stored;
finally `terc` is recomputed when any of the four unit segments is truthy. -/
def UlicEntry.update_from (e : UlicEntry) (obj : Dct) :
    Except PyErr UlicEntry :=
  let dct := remapUpdate obj
  let e1 := if (Dct.get dct "sym").truthy then { e with sym := Dct.get dct "sym" } else e
  let e2 := if (Dct.get dct "sym_ul").truthy then { e1 with sym_ul_attr := Dct.get dct "sym_ul" } else e1
  if (Dct.get dct "cecha").truthy then .error (.attributeError "cant set attribute")
  else
    let e3 := if (Dct.get dct "nazwa_1").truthy then { e2 with nazwa_1 := Dct.get dct "nazwa_1" } else e2
    let e4 := if (Dct.get dct "nazwa_2").truthy then { e3 with nazwa_2 := Dct.get dct "nazwa_2" } else e3
    if (Dct.get dct "woj").truthy || (Dct.get dct "pow").truthy ||
        (Dct.get dct "gmi").truthy || (Dct.get dct "rodz_gmi").truthy then
      match pyConcat4 (Dct.get dct "woj") (Dct.get dct "pow")
          (Dct.get dct "gmi") (Dct.get dct "rodz_gmi") with
      | .ok t => .ok { e4 with terc := .str t }
      | .error er => .error er
    else
      .ok e4

/-- A street aggregate: shared street symbol, qualifier label and canonical
name plus the member records keyed by locality symbol (insertion order). -/
structure UlicMultiEntry where
  symul : PyVal
  cecha : String
  nazwa : String
  entries : List (PyVal × UlicEntry)
  deriving DecidableEq, Repr

/-- `UlicMultiEntry.__init__(entry)` (teryt.py:477-481): evaluates the
member's `cecha` and `nazwa` properties (which may raise) and starts the
member dictionary with that single entry. -/
def UlicMultiEntry.ofEntry (e : UlicEntry) : Except PyErr UlicMultiEntry := do
  let c ← e.cecha
  let n ← e.nazwa
  pure { symul := e.symul, cecha := c, nazwa := n, entries := [(e.sym, e)] }

/-- `UlicMultiEntry.add_entry(value)` (teryt.py:490-503): a differing street
symbol raises `ValueError`; differing `cecha`/`nazwa` only log a diagnostic
(the log arguments, which read the live locality cache, are elided) — both
comparisons still evaluate the member's properties; finally the member is
stored under its locality symbol. -/
def UlicMultiEntry.add_entry (m : UlicMultiEntry) (value : UlicEntry) :
    Except PyErr UlicMultiEntry := do
  if m.symul ≠ value.symul then
    throw (.valueError "Symul different than expected")
  else do
    let _ ← value.cecha
    let _ ← value.nazwa
    pure { m with entries := dictSet m.entries value.sym value }

/-- `UlicMultiEntry.get_by_sym(sym)` (teryt.py:505-506). -/
def UlicMultiEntry.get_by_sym (m : UlicMultiEntry) (sym : PyVal) :
    Except PyErr UlicEntry :=
  match dictGet m.entries sym with
  | some e => .ok e
  | Option.none => .error (.keyError sym.render)

/-- `UlicMultiEntry.remove_by_sym(sym)` (teryt.py:508-509): `del` raises
`KeyError` when the member is absent. -/
def UlicMultiEntry.remove_by_sym (m : UlicMultiEntry) (sym : PyVal) :
    Except PyErr UlicMultiEntry :=
  match dictGet m.entries sym with
  | some _ => .ok { m with entries := dictEraseKey m.entries sym }
  | Option.none => .error (.keyError sym.render)

/-!
### Delta state machine (`BaseTerytCache._cache_update` and the per-catalog
handlers, teryt.py:635-647, 659-719, 736-783, 800-891)

A change record of the update stream carries the one-letter `TypKorekty`
operation code and the `...Przed`/`...Po` field sets collected by
`update_record_to_dict`.  A cache in these handlers is modelled as the map
from business key to entity — the handlers' in-memory view, idealizing the
`cache.get`/`cache.add` serialization round trip to the identity.  This is
an idealization, not a property of the source: the entity codecs do not in
fact round-trip (the street and unit deserializers always raise, see the
round-trip section below), so the idealized handlers succeed on strictly
more inputs than the program.  It is used for the invariant and replay
claims, where every extra success still has to satisfy the proved
conclusion; the serializer-faithful street Remove path, which exhibits the
failure the idealization hides, is `UlicCache.handle_u_stored` below.
-/

structure ChangeRecord where
  op : String
  before : Dct
  after : Dct
  deriving DecidableEq, Repr

/-- The contents of one entity cache: business key to entity, in insertion
order. -/
abbrev CacheMap (ε : Type) := List (PyVal × ε)

/-- A per-catalog handler table: the fixed map from a one-letter operation
code to the bound handler method. -/
abbrev HandlerTable (ε : Type) :=
  List (String × (CacheMap ε → ChangeRecord → Except PyErr (CacheMap ε)))

/-- `Cache.delete(key)` as used by the handlers: `KeyError` when absent. -/
def cacheDelete {ε : Type} (m : CacheMap ε) (k : PyVal) :
    Except PyErr (CacheMap ε) :=
  match dictGet m k with
  | some _ => .ok (dictEraseKey m k)
  | Option.none => .error (.keyError k.render)

/-- The record loop of `BaseTerytCache._cache_update` (teryt.py:640-647):
look the operation code up in `change_handlers`; `if not handler: raise
ValueError("Unkown TypKorekty: ...")`; otherwise run the handler and
continue with the next record. -/
def replay {ε : Type} (handlers : HandlerTable ε) (cache : CacheMap ε) :
    List ChangeRecord → Except PyErr (CacheMap ε)
  | [] => .ok cache
  | r :: rs =>
      match dictGet handlers r.op with
      | Option.none => .error (.valueError ("Unkown TypKorekty: " ++ r.op))
      | some h =>
          match h cache r with
          | .error e => .error e
          | .ok c' => replay handlers c' rs

/-!
#### `SimcCache` handlers (teryt.py:664-719)
-/

/-- `SimcCache._handle_d` (teryt.py:664-673): decode the after-fields and
insert under the locality symbol. -/
def SimcCache.handle_d (cache : CacheMap SimcEntry) (r : ChangeRecord) :
    Except PyErr (CacheMap SimcEntry) := do
  let new ← SimcEntry.from_dict r.after
  pure (dictSet cache new.sym new)

/-- `SimcCache._handle_u` (teryt.py:675-681): decode the before-fields and
delete the entry at the locality symbol. -/
def SimcCache.handle_u (cache : CacheMap SimcEntry) (r : ChangeRecord) :
    Except PyErr (CacheMap SimcEntry) := do
  let old ← SimcEntry.from_dict r.before
  cacheDelete cache old.sym

/-- `SimcCache._handle_z` (teryt.py:683-701): look the entry up by the
before-key; raise on absence; overlay the truthy after-fields; when the key
changed, delete the old key; insert under the (possibly new) key. -/
def SimcCache.handle_z (cache : CacheMap SimcEntry) (r : ChangeRecord) :
    Except PyErr (CacheMap SimcEntry) := do
  let old ← SimcEntry.from_dict r.before
  match dictGet cache old.sym with
  | Option.none => throw (.valueError "Modification of non-existing record")
  | some entry => do
      let entry := entry.update_from r.after
      let cache₁ ← if old.sym ≠ entry.sym then cacheDelete cache old.sym
                   else pure cache
      pure (dictSet cache₁ entry.sym entry)

/-- `SimcCache.change_handlers` (teryt.py:714-719): `P` reuses `_handle_z`. -/
def SimcCache.handlers : HandlerTable SimcEntry :=
  [("D", SimcCache.handle_d), ("U", SimcCache.handle_u),
   ("Z", SimcCache.handle_z), ("P", SimcCache.handle_z)]

/-!
#### `TerytCache` handlers (teryt.py:740-783)
-/

/-- `TerytCache._handle_d` (teryt.py:740-749). -/
def TerytCache.handle_d (cache : CacheMap TercEntry) (r : ChangeRecord) :
    Except PyErr (CacheMap TercEntry) := do
  let new ← TercEntry.from_dict r.after
  let k ← new.terc
  pure (dictSet cache (.str k) new)

/-- `TerytCache._handle_u` (teryt.py:751-757). -/
def TerytCache.handle_u (cache : CacheMap TercEntry) (r : ChangeRecord) :
    Except PyErr (CacheMap TercEntry) := do
  let old ← TercEntry.from_dict r.before
  let k ← old.terc
  cacheDelete cache (.str k)

/-- `TerytCache._handle_m` (teryt.py:759-777). -/
def TerytCache.handle_m (cache : CacheMap TercEntry) (r : ChangeRecord) :
    Except PyErr (CacheMap TercEntry) := do
  let old ← TercEntry.from_dict r.before
  let k ← old.terc
  match dictGet cache (.str k) with
  | Option.none => throw (.valueError "Modification of non-existing record")
  | some entry => do
      let entry := entry.update_from r.after
      let nk ← entry.terc
      let cache₁ ← if k ≠ nk then cacheDelete cache (.str k) else pure cache
      pure (dictSet cache₁ (.str nk) entry)

/-- `TerytCache.change_handlers` (teryt.py:779-783). -/
def TerytCache.handlers : HandlerTable TercEntry :=
  [("D", TerytCache.handle_d), ("U", TerytCache.handle_u),
   ("M", TerytCache.handle_m)]

/-!
#### `UlicCache` handlers (teryt.py:804-891)
-/

/-- `UlicCache._handle_d` (teryt.py:804-820): decode the after-fields; add
the member to the existing aggregate at its street symbol, or create a fresh
single-member aggregate. -/
def UlicCache.handle_d (cache : CacheMap UlicMultiEntry) (r : ChangeRecord) :
    Except PyErr (CacheMap UlicMultiEntry) := do
  let to_ ← UlicEntry.from_update r.after
  match dictGet cache to_.symul with
  | some agg => do
      let agg ← agg.add_entry to_
      pure (dictSet cache to_.symul agg)
  | Option.none => do
      let agg ← UlicMultiEntry.ofEntry to_
      pure (dictSet cache to_.symul agg)

/-- `UlicCache._handle_m` (teryt.py:822-855): locate the aggregate by the
before street symbol (a falsy symbol skips the lookup); raise on absence;
update the addressed member in place; the re-keying branch would move the
member to the aggregate of its new street symbol; finally write the
aggregate back under its street symbol. -/
def UlicCache.handle_m (cache : CacheMap UlicMultiEntry) (r : ChangeRecord) :
    Except PyErr (CacheMap UlicMultiEntry) := do
  let old ← UlicEntry.from_update r.before
  let centry := if old.symul.truthy then dictGet cache old.symul
                else Option.none
  match centry with
  | Option.none =>
      throw (.valueError "Modification of non-existing record")
  | some agg => do
      let ul ← agg.get_by_sym old.sym
      let ul ← ul.update_from r.after
      let agg := { agg with entries := dictSet agg.entries old.sym ul }
      if old.symul ≠ ul.symul then do
        let agg ← agg.remove_by_sym old.sym
        let cache₁ ← if agg.entries.isEmpty then cacheDelete cache old.symul
                     else pure (dictSet cache old.symul agg)
        match dictGet cache₁ ul.symul with
        | Option.none => do
            let fresh ← UlicMultiEntry.ofEntry ul
            pure (dictSet cache₁ fresh.symul fresh)
        | some target => do
            let target ← target.add_entry ul
            pure (dictSet cache₁ target.symul target)
      else
        pure (dictSet cache agg.symul agg)

/-- `UlicCache._handle_u` (teryt.py:857-872): remove the addressed member
from the aggregate at the before street symbol; delete the aggregate when it
became empty, otherwise write it back. -/
def UlicCache.handle_u (cache : CacheMap UlicMultiEntry) (r : ChangeRecord) :
    Except PyErr (CacheMap UlicMultiEntry) := do
  let old ← UlicEntry.from_update r.before
  match dictGet cache old.symul with
  | Option.none =>
      throw (.attributeError "NoneType object has no attribute remove_by_sym")
  | some agg => do
      let agg ← agg.remove_by_sym old.sym
      if agg.entries.isEmpty then
        cacheDelete cache old.symul
      else
        pure (dictSet cache agg.symul agg)

/-- The member-update loop of `UlicCache._handle_z`: update every member of
the aggregate with the shared after-fields, in order. -/
def ulicUpdateAll (ents : List (PyVal × UlicEntry)) (after : Dct) :
    Except PyErr (List (PyVal × UlicEntry)) :=
  match ents with
  | [] => .ok []
  | (k, e) :: rest => do
      let e' ← e.update_from after
      let rest' ← ulicUpdateAll rest after
      pure ((k, e') :: rest')

/-- `UlicCache._handle_z` (teryt.py:874-884): update every member with the
after-fields, then copy the shared fields (`symul`, `cecha`, `nazwa`) from
the loop's last member onto the aggregate and write it back under its street
symbol.  An absent aggregate fails the `get_all` attribute access on `None`;
an aggregate without members leaves the loop variable unbound. -/
def UlicCache.handle_z (cache : CacheMap UlicMultiEntry) (r : ChangeRecord) :
    Except PyErr (CacheMap UlicMultiEntry) := do
  let old ← UlicEntry.from_update r.before
  match dictGet cache old.symul with
  | Option.none =>
      throw (.attributeError "NoneType object has no attribute get_all")
  | some agg => do
      let entries ← ulicUpdateAll agg.entries r.after
      match entries.getLast? with
      | Option.none => throw .nameError
      | some (_, last) => do
          let c ← last.cecha
          let n ← last.nazwa
          let agg := { symul := last.symul, cecha := c, nazwa := n,
                       entries := entries }
          pure (dictSet cache agg.symul agg)

/-- `UlicCache.change_handlers` (teryt.py:886-891). -/
def UlicCache.handlers : HandlerTable UlicMultiEntry :=
  [("D", UlicCache.handle_d), ("M", UlicCache.handle_m),
   ("U", UlicCache.handle_u), ("Z", UlicCache.handle_z)]

/-!
### Registry sync engine (`BaseTerytCache`, teryt.py:567-656)

`get()` probes the remote current version (cached with a 1-hour TTL — within
one recovery episode the probe is a fixed value `remoteVersion`), asks the
manager for the cache at that minimum version, and on `CacheExpired` replays
the delta between the stored and the probed version and calls itself again.
The delta payload the remote service returns for that version range is the
fixed record list `delta`; the date/epoch conversions around the version
numbers only affect granularity, not control flow, and are elided.
`_cache_update` never touches the version metadata: the state passed to the
recursive call keeps `meta` unchanged.
-/

structure SyncState (ε : Type) where
  meta : Store
  table : CacheMap ε
  remoteVersion : Int
  delta : List ChangeRecord

/-- `if cache_version:` — the truthiness test `_get_cache` applies to the
version argument before deciding whether to pass a minimum version on. -/
def versionArg (v : PyVal) : Option Int :=
  match v with
  | .int n => if n = 0 then Option.none else some n
  | _ => Option.none

/-- `BaseTerytCache.get()` (teryt.py:590-597) with the recursion depth made
explicit: `Option.none` is the outcome of a computation that never reaches a
`return` within the given depth.  One step: version-checked `get_cache`; on
`CacheExpired`, read the stored version, open the cache at it, replay the
delta (`_cache_update`, teryt.py:635-647) and recurse on the *same*
metadata; other exceptions propagate. -/
def syncGet {ε : Type} (handlers : HandlerTable ε) (path : String) :
    Nat → SyncState ε → Option (Except PyErr (CacheMap ε))
  | 0, _ => Option.none
  | Nat.succ fuel, st =>
      let mgr : CacheManager := ⟨st.meta, [path]⟩
      match mgr.get_cache path
          (if st.remoteVersion = 0 then Option.none else some st.remoteVersion) with
      | .ok _ => some (.ok st.table)
      | .error (.cacheExpired _ _ _) =>
          match mgr.version path with
          | .error e => some (.error e)
          | .ok stored =>
              match mgr.get_cache path (versionArg stored) with
              | .error e => some (.error e)
              | .ok _ =>
                  match replay handlers st.table st.delta with
                  | .error e => some (.error e)
                  | .ok table' =>
                      syncGet handlers path fuel { st with table := table' }
      | .error e => some (.error e)

/-!
### Serializer round trip (`ToFromJsonSerializer`, teryt.py:142-151)

`serialize` is `proto_serialize(cls.to_dict(x))` and `deserialize` is
`cls.from_dict(proto_deserialize(bytes))`.  Modelled from the spec: the
protobuf codec (`ProtoSerializer` over the generated `teryt_pb2` classes,
which are not part of the sources) is an opaque byte coding of dictionaries
that round-trips them (spec §6: "must round-trip ... for every valid
entity"). -/

/-- `ToFromJsonSerializer.serialize` for the locality type. -/
def simcSerialize (x : SimcEntry) : Except PyErr PyBytes := do
  let d ← x.to_dict
  pure (Serializer.serialize d)

/-- `ToFromJsonSerializer.deserialize` for the locality type. -/
def simcDeserialize (b : PyBytes) : Except PyErr SimcEntry := do
  let d ← Serializer.deserialize b
  SimcEntry.from_dict d

/-- `deserialize(serialize(x))` for the locality type. -/
def simcRoundTrip (x : SimcEntry) : Except PyErr SimcEntry := do
  let b ← simcSerialize x
  simcDeserialize b

/-- `deserialize(serialize(x))` for the administrative-unit type. -/
def tercRoundTrip (x : TercEntry) : Except PyErr TercEntry := do
  let d ← x.to_dict
  let d' ← Serializer.deserialize (Serializer.serialize d)
  TercEntry.from_dict d'

/-!
#### Street serializer (`UlicEntry.to_dict/from_dict`, teryt.py:395-418, and
`UlicMultiEntry.to_dict/from_dict/from_list`, teryt.py:517-543)

`UlicMultiEntry.to_dict` nests the member dictionaries in a list under the
`entries` key; `PyVal` has no list value, so the serialized aggregate is
carried as the pair of its scalar dictionary and its member-dictionary list
— the same data the nested Python dictionary holds.
-/

/-- `v[a:b]` — Python slicing, defined on strings (`TypeError` otherwise,
in particular on the integers the street serializer stores). -/
def pySliceRange (v : PyVal) (a b : Nat) : Except PyErr PyVal :=
  match v with
  | .str s => .ok (.str (String.mk ((s.data.drop a).take (b - a))))
  | _ => .error .typeError

/-- `v[i]` — Python indexing, defined on strings long enough. -/
def pyIndex (v : PyVal) (i : Nat) : Except PyErr PyVal :=
  match v with
  | .str s =>
      match s.data.get? i with
      | some c => .ok (.str (String.mk [c]))
      | Option.none => .error (.indexError "string index out of range")
  | _ => .error .typeError

/-- `UlicEntry.to_dict()` (teryt.py:395-403): `sym`, `symul` and `terc` are
passed through `int(...)`, in the order the dictionary literal evaluates
them. -/
def UlicEntry.to_dict (e : UlicEntry) : Except PyErr Dct := do
  let s ← pyInt e.sym
  let su ← pyInt e.symul
  let t ← pyInt e.terc
  pure [("sym", .int s), ("symul", .int su), ("cecha", e.cecha_orig),
        ("nazwa_1", e.nazwa_1), ("nazwa_2", e.nazwa_2), ("terc", .int t)]

/-- `UlicEntry.from_dict(dct)` (teryt.py:405-418): reads `terc` first, then
the remaining subscripts, then slices `terc[:2]`, `terc[2:4]`, `terc[4:6]`
and indexes `terc[6]` to rebuild the unit segments for the constructor. -/
def UlicEntry.from_dict (dct : Dct) : Except PyErr UlicEntry := do
  let terc ← Dct.getItem dct "terc"
  let s ← Dct.getItem dct "sym"
  let su ← Dct.getItem dct "symul"
  let ce ← Dct.getItem dct "cecha"
  let n1 ← Dct.getItem dct "nazwa_1"
  let n2 := nvl (Dct.get dct "nazwa_2") (.str "")
  let woj ← pySliceRange terc 0 2
  let pw ← pySliceRange terc 2 4
  let gm ← pySliceRange terc 4 6
  let rg ← pyIndex terc 6
  UlicEntry.init
    [("sym", s), ("sym_ul", su), ("cecha", ce), ("nazwa_1", n1),
     ("nazwa_2", n2), ("woj", woj), ("pow", pw), ("gmi", gm),
     ("rodz_gmi", rg)]

/-- The member list comprehension of `UlicMultiEntry.to_dict`:
`[x.to_dict() for x in self.entries.values()]`, in order. -/
def ulicEntriesToDicts : List (PyVal × UlicEntry) → Except PyErr (List Dct)
  | [] => .ok []
  | q :: rest => do
      let d ← q.2.to_dict
      let ds ← ulicEntriesToDicts rest
      pure (d :: ds)

/-- The member list comprehension of `UlicMultiEntry.from_dict`:
`[UlicEntry.from_dict(x) for x in dct['entries']]`, in order. -/
def ulicDictsToEntries : List Dct → Except PyErr (List UlicEntry)
  | [] => .ok []
  | d :: rest => do
      let e ← UlicEntry.from_dict d
      let es ← ulicDictsToEntries rest
      pure (e :: es)

/-- `UlicMultiEntry.to_dict()` (teryt.py:517-525): rejects an inconsistent
aggregate, then emits the scalar dictionary (`symul` through `int(...)`)
and the member-dictionary list. -/
def UlicMultiEntry.to_dict (m : UlicMultiEntry) :
    Except PyErr (Dct × List Dct) := do
  if !(m.entries.all (fun q => q.2.symul = m.symul)) then
    throw (.valueError "Inconsistent object")
  else do
    let su ← pyInt m.symul
    let mems ← ulicEntriesToDicts m.entries
    pure ([("symul", .int su), ("cecha", .str m.cecha),
           ("nazwa", .str m.nazwa)], mems)

/-- The iteration of `UlicMultiEntry.from_list`'s `for entry in lst:
rv.add_entry(entry)`. -/
def UlicMultiEntry.addAll (m : UlicMultiEntry) :
    List UlicEntry → Except PyErr UlicMultiEntry
  | [] => .ok m
  | e :: rest => do
      let m' ← m.add_entry e
      m'.addAll rest

/-- `UlicMultiEntry.from_list(lst)` (teryt.py:535-543): an empty list raises
`ValueError`; the aggregate starts from `lst[0]` and, when the list has more
than one element, every element (the first included) is re-added through
`add_entry`. -/
def UlicMultiEntry.from_list (lst : List UlicEntry) :
    Except PyErr UlicMultiEntry :=
  match lst with
  | [] => .error (.valueError "At least one entry is needed")
  | e :: rest => do
      let rv ← UlicMultiEntry.ofEntry e
      match rest with
      | [] => pure rv
      | _ :: _ => rv.addAll (e :: rest)

/-- `UlicMultiEntry.from_dict(dct)` (teryt.py:527-533): deserialize every
member, rebuild the aggregate with `from_list`, then `assert` that the
rebuilt shared fields match the serialized ones. -/
def UlicMultiEntry.from_dict (p : Dct × List Dct) :
    Except PyErr UlicMultiEntry := do
  let ents ← ulicDictsToEntries p.2
  let ret ← UlicMultiEntry.from_list ents
  let rs ← pyInt ret.symul
  let ds ← Dct.getItem p.1 "symul"
  if PyVal.int rs ≠ ds then throw .assertionError
  else do
    let dc ← Dct.getItem p.1 "cecha"
    if PyVal.str ret.cecha ≠ dc then throw .assertionError
    else do
      let dn ← Dct.getItem p.1 "nazwa"
      if PyVal.str ret.nazwa ≠ dn then throw .assertionError
      else pure ret

/-- `deserialize(serialize(x))` for the street-aggregate type. -/
def ulicRoundTrip (m : UlicMultiEntry) : Except PyErr UlicMultiEntry := do
  let payload ← m.to_dict
  UlicMultiEntry.from_dict payload

/-!
#### Serializer-faithful street cache access

The street table stores serialized aggregates; `Cache.get` deserializes the
stored payload through `ToFromJsonSerializer` (`UlicMultiEntry.from_dict`)
on every read and `Cache.add` serializes through `UlicMultiEntry.to_dict`
on every write.  `UlicCache.handle_u_stored` is `_handle_u` over this
store, with nothing idealized away.
-/

/-- The contents of the street table: street symbol to serialized
aggregate. -/
abbrev UlicStore := CacheMap (Dct × List Dct)

/-- `cache.get(key)` on the street table: absent keys yield `None`; a stored
payload is deserialized by the cache's serializer. -/
def ulicStoreGet (store : UlicStore) (k : PyVal) :
    Except PyErr (Option UlicMultiEntry) :=
  match dictGet store k with
  | Option.none => .ok Option.none
  | some payload => (UlicMultiEntry.from_dict payload).map some

/-- `UlicCache._handle_u` (teryt.py:857-872) over the serialized store:
deserialize the aggregate at the before street symbol, remove the addressed
member, then delete the table entry or serialize the shrunk aggregate back. -/
def UlicCache.handle_u_stored (store : UlicStore) (r : ChangeRecord) :
    Except PyErr UlicStore := do
  let old ← UlicEntry.from_update r.before
  let got ← ulicStoreGet store old.symul
  match got with
  | Option.none =>
      throw (.attributeError "NoneType object has no attribute remove_by_sym")
  | some agg => do
      let agg ← agg.remove_by_sym old.sym
      if agg.entries.isEmpty then
        cacheDelete store old.symul
      else do
        let payload ← agg.to_dict
        pure (dictSet store agg.symul payload)

instance {ε α : Type} [DecidableEq ε] [DecidableEq α] :
    DecidableEq (Except ε α) := fun a b =>
  match a, b with
  | .ok x, .ok y =>
      if h : x = y then isTrue (h ▸ rfl)
      else isFalse (fun hh => h (Except.ok.inj hh))
  | .error x, .error y =>
      if h : x = y then isTrue (h ▸ rfl)
      else isFalse (fun hh => h (Except.error.inj hh))
  | .ok _, .error _ => isFalse (fun hh => Except.noConfusion hh)
  | .error _, .ok _ => isFalse (fun hh => Except.noConfusion hh)

/-- The stale-cache state driving claim C1: the locality cache is ready at
stored version 100, the remote service reports current version 200, and the
delta between the two versions is empty. -/
def c1State : SyncState SimcEntry :=
  { meta := [("osm_teryt_simc_v1",
      .payload [("status", .str "ready"), ("updated", .int 0),
                ("version", .int 100)])],
    table := [],
    remoteVersion := 200,
    delta := [] }

/-- The street-aggregate invariant (spec §3): every stored aggregate sits
under its own street symbol, is non-empty, and every contained member record
shares the aggregate's street symbol. -/
def UlicInv (m : CacheMap UlicMultiEntry) : Prop :=
  ∀ p ∈ m, p.2.symul = p.1 ∧ p.2.entries ≠ [] ∧
    ∀ q ∈ p.2.entries, q.2.symul = p.2.symul

/-!
## Claims
-/

theorem dictGet_dictSet_self {κ ν : Type} [DecidableEq κ]
    (l : List (κ × ν)) (k : κ) (v : ν) :
    dictGet (dictSet l k v) k = some v := by
  induction l with
  | nil => simp [dictSet, dictGet]
  | cons p rest ih =>
      obtain ⟨k', v'⟩ := p
      by_cases h : k' = k
      · simp [dictSet, h, dictGet]
      · simp [dictSet, h, dictGet, ih]

theorem dictGet_dictSet_ne {κ ν : Type} [DecidableEq κ]
    (l : List (κ × ν)) (k k' : κ) (v : ν) (h : k' ≠ k) :
    dictGet (dictSet l k v) k' = dictGet l k' := by
  induction l with
  | nil => simp [dictSet, dictGet, Ne.symm h]
  | cons p rest ih =>
      obtain ⟨k₀, v₀⟩ := p
      by_cases hk : k₀ = k
      · subst hk
        simp [dictSet, dictGet, Ne.symm h]
      · by_cases hk' : k₀ = k'
        · simp [dictSet, hk, dictGet, hk', h]
        · simp [dictSet, hk, dictGet, hk', ih]

theorem dictGet_dictEraseKey_self {κ ν : Type} [DecidableEq κ]
    (l : List (κ × ν)) (k : κ) :
    dictGet (dictEraseKey l k) k = Option.none := by
  induction l with
  | nil => simp [dictEraseKey, dictGet]
  | cons p rest ih =>
      obtain ⟨k₀, v₀⟩ := p
      by_cases h : k₀ = k
      · simpa [dictEraseKey, h] using ih
      · simpa [dictEraseKey, h, dictGet] using ih

theorem dictGet_dictEraseKey_ne {κ ν : Type} [DecidableEq κ]
    (l : List (κ × ν)) (k k' : κ) (h : k' ≠ k) :
    dictGet (dictEraseKey l k) k' = dictGet l k' := by
  induction l with
  | nil => simp [dictEraseKey]
  | cons p rest ih =>
      obtain ⟨k₀, v₀⟩ := p
      by_cases hk : k₀ = k
      · subst hk
        simpa [dictEraseKey, dictGet, Ne.symm h] using ih
      · by_cases hk' : k₀ = k'
        · simp [dictEraseKey, hk, dictGet, hk', h]
        · simpa [dictEraseKey, hk, dictGet, hk'] using ih

theorem mem_dictSet {κ ν : Type} [DecidableEq κ]
    {l : List (κ × ν)} {k : κ} {v : ν} {p : κ × ν}
    (h : p ∈ dictSet l k v) : p ∈ l ∨ p = (k, v) := by
  induction l with
  | nil => simpa [dictSet] using h
  | cons q rest ih =>
      obtain ⟨k₀, v₀⟩ := q
      by_cases hk : k₀ = k
      · simp only [dictSet, if_pos hk, List.mem_cons] at h
        rcases h with h | h
        · exact Or.inr h
        · exact Or.inl (List.mem_cons_of_mem _ h)
      · simp only [dictSet, if_neg hk, List.mem_cons] at h
        rcases h with h | h
        · exact Or.inl (by simp [h])
        · rcases ih h with h' | h'
          · exact Or.inl (List.mem_cons_of_mem _ h')
          · exact Or.inr h'

theorem mem_dictEraseKey {κ ν : Type} [DecidableEq κ]
    {l : List (κ × ν)} {k : κ} {p : κ × ν}
    (h : p ∈ dictEraseKey l k) : p ∈ l :=
  List.mem_of_mem_filter h

theorem dictGet_mem {κ ν : Type} [DecidableEq κ]
    {l : List (κ × ν)} {k : κ} {v : ν}
    (h : dictGet l k = some v) : (k, v) ∈ l := by
  induction l with
  | nil => simp [dictGet] at h
  | cons p rest ih =>
      obtain ⟨k₀, v₀⟩ := p
      by_cases hk : k₀ = k
      · subst hk
        have hv : v₀ = v := by simpa [dictGet] using h
        subst hv
        exact List.mem_cons_self _ _
      · simp only [dictGet, if_neg hk] at h
        exact List.mem_cons_of_mem _ (ih h)

@[simp]
theorem exceptOkBind {ε α β : Type} (a : α) (f : α → Except ε β) :
    ((Except.ok a : Except ε α) >>= f) = f a := rfl

@[simp]
theorem exceptErrBind {ε α β : Type} (e : ε) (f : α → Except ε β) :
    ((Except.error e : Except ε α) >>= f) = .error e := rfl

@[simp]
theorem exceptMapOk {ε α β : Type} (f : α → β) (a : α) :
    (f <$> (Except.ok a : Except ε α)) = Except.ok (f a) := rfl

@[simp]
theorem exceptMapErr {ε α β : Type} (f : α → β) (e : ε) :
    (f <$> (Except.error e : Except ε α)) = (Except.error e : Except ε β) := rfl
/-- Claim C7 (code bug exhibited): the spec says `version(name)` returns the
stored version or `-1` for an unknown name and never fails.  The code chains
`self.meta.get(name, {}).get('version', -1)`, but `ShelveCache.get` honors
only truthy defaults, so the falsy `{}` is discarded: for an unknown name the
first `get` yields `None` and the second is an attribute access on `None`,
raising `AttributeError`.  With a recorded version the stored integer is
returned, and a `creating` entry (no version yet) yields `-1`. -/
theorem C7_version_unknown_name_raises :
    CacheManager.version ⟨[], []⟩ "osm_teryt_simc_v1"
      = .error (.attributeError "NoneType object has no attribute get")
  ∧ CacheManager.version
      ⟨[("osm_teryt_simc_v1",
         .payload [("status", .str "ready"), ("updated", .int 0),
                   ("version", .int 1507483327)])], []⟩
      "osm_teryt_simc_v1" = .ok (.int 1507483327)
  ∧ CacheManager.version
      ⟨[("osm_teryt_simc_v1",
         .payload [("status", .str "creating"), ("updated", .int 0)])], []⟩
      "osm_teryt_simc_v1" = .ok (.int (-1)) := by
  refine ⟨rfl, rfl, rfl⟩

/-- Claim C9 (code bug exhibited): the spec's table contract says `keys()`
returns the sequence of keys present in the table.  `ShelveCache.keys`
evaluates `self.shelve.keys()` without a `return` statement, so after adding
an entry the method still returns `None` — while the expression it discards,
and `DynamoCache.keys`, do contain the added key. -/
theorem C9_shelve_keys_returns_nothing :
    ShelveCache.keys (ShelveCache.add [] "k" [("a", .int 1)]) = Option.none
  ∧ ShelveCache.keysExpr (ShelveCache.add [] "k" [("a", .int 1)]) = ["k"]
  ∧ DynamoCache.keys (ShelveCache.add [] "k" [("a", .int 1)]) = some ["k"] := by
  refine ⟨rfl, rfl, rfl⟩

/-- Claim C10 (confirmed): for both storage backends, `get(key, default)`
honors the supplied default only when the default is truthy: an absent key
with the falsy default `{}` yields `None` rather than the default, a stored
falsy payload is treated exactly like an absent key, and a truthy default is
returned for an absent key. -/
theorem C10_get_default_truthiness (store : Store) (name : String) (d : Dct) :
    (dictGet store name = Option.none →
        ShelveCache.get store name (some []) = Option.none
      ∧ DynamoCache.get store name (some []) = Option.none)
  ∧ (dictGet store name = some .empty →
        ShelveCache.get store name (some []) = Option.none
      ∧ DynamoCache.get store name (some []) = Option.none
      ∧ (d ≠ [] →
            ShelveCache.get store name (some d) = some d
          ∧ DynamoCache.get store name (some d) = some d))
  ∧ (dictGet store name = Option.none → d ≠ [] →
        ShelveCache.get store name (some d) = some d
      ∧ DynamoCache.get store name (some d) = some d) := by
  refine ⟨?_, ?_, ?_⟩
  · intro h
    constructor <;> simp [ShelveCache.get, DynamoCache.get, h]
  · intro h
    refine ⟨?_, ?_, ?_⟩
    · simp [ShelveCache.get, h]
    · simp [DynamoCache.get, h]
    · intro hd
      constructor <;>
        simp [ShelveCache.get, DynamoCache.get, h, List.isEmpty_iff, hd]
  · intro h hd
    constructor <;>
      simp [ShelveCache.get, DynamoCache.get, h, List.isEmpty_iff, hd]

/-- Witness for C10 at a concrete table: the key `"e"` holds falsy bytes and
the key `"a"` is absent; with the falsy default `{}` both reads yield `None`,
and with a truthy default the default is honored. -/
theorem C10_get_default_truthiness_witness :
    ShelveCache.get [("e", PyBytes.empty)] "e" (some []) = Option.none
  ∧ DynamoCache.get [("e", PyBytes.empty)] "e" (some []) = Option.none
  ∧ ShelveCache.get [("e", PyBytes.empty)] "a" (some [("x", .int 1)])
      = some [("x", .int 1)] := by
  refine ⟨?_, ?_, ?_⟩
  · exact ((C10_get_default_truthiness [("e", PyBytes.empty)] "e" []).2.1
      (by decide)).1
  · exact ((C10_get_default_truthiness [("e", PyBytes.empty)] "e" []).2.1
      (by decide)).2.1
  · exact ((C10_get_default_truthiness [("e", PyBytes.empty)] "a"
      [("x", .int 1)]).2.2 (by decide) (by decide)).1

/-- `TercEntry.from_dict` can never return an entry, whatever dictionary it
is given: when every subscript succeeds, the keyword call against the
positional-dict constructor raises `TypeError` (and a missing key raises
`KeyError` before that). -/
theorem terc_from_dict_never_ok (d : Dct) (y : TercEntry) :
    TercEntry.from_dict d ≠ .ok y := by
  intro h
  simp only [TercEntry.from_dict] at h
  rcases h1 : Dct.getItem d "woj" with e1 | w
  · rw [h1] at h
    simp at h
  · rw [h1] at h
    simp only [exceptOkBind] at h
    rcases h2 : Dct.getItem d "powiat" with e2 | p
    · rw [h2] at h
      simp at h
    · rw [h2] at h
      simp only [exceptOkBind] at h
      rcases h3 : Dct.getItem d "gmi" with e3 | g
      · rw [h3] at h
        simp at h
      · rw [h3] at h
        simp only [exceptOkBind] at h
        rcases h4 : Dct.getItem d "rodz" with e4 | r
        · rw [h4] at h
          simp at h
        · rw [h4] at h
          simp only [exceptOkBind] at h
          rcases h5 : Dct.getItem d "nazwadod" with e5 | nd
          · rw [h5] at h
            simp at h
          · rw [h5] at h
            simp only [exceptOkBind] at h
            rcases h6 : Dct.getItem d "nazwa" with e6 | n
            · rw [h6] at h
              simp at h
            · rw [h6] at h
              simp only [exceptOkBind] at h
              have hfalse : kwargsAccepted TercEntry.initParams
                  (List.map Prod.fst
                    [("woj", w),
                     ("powiat", if p.truthy then p else PyVal.str ""),
                     ("gmi", if g.truthy then g else PyVal.str ""),
                     ("rodz", if r.truthy then r else PyVal.str ""),
                     ("nazwadod", nd), ("nazwa", n)]) = false := rfl
              rw [hfalse] at h
              simp [throw, throwThe, MonadExceptOf.throw] at h

/-- `deserialize(serialize(x))` never succeeds for an administrative unit:
the serialized dictionary omits `powiat`/`gmi` for province- and
county-level entries (so deserialization raises `KeyError`), and otherwise
the keyword constructor call raises `TypeError`. -/
theorem terc_roundtrip_never_ok (x : TercEntry) (y : TercEntry) :
    tercRoundTrip x ≠ .ok y := by
  intro h
  simp only [tercRoundTrip] at h
  rcases ht : x.to_dict with e | d
  · rw [ht] at h
    simp at h
  · rw [ht] at h
    simp only [exceptOkBind, Serializer.serialize, Serializer.deserialize] at h
    exact terc_from_dict_never_ok d y h

/-- A member dictionary written by `UlicEntry.to_dict` stores `terc` as an
integer, so `UlicEntry.from_dict` on it always fails slicing `terc[:2]`. -/
theorem ulic_entry_from_to_dict_typeerror (e : UlicEntry) (d : Dct)
    (h : UlicEntry.to_dict e = .ok d) :
    UlicEntry.from_dict d = .error .typeError := by
  simp only [UlicEntry.to_dict] at h
  rcases h1 : pyInt e.sym with e1 | s
  · rw [h1] at h
    simp at h
  · rw [h1] at h
    simp only [exceptOkBind] at h
    rcases h2 : pyInt e.symul with e2 | su
    · rw [h2] at h
      simp at h
    · rw [h2] at h
      simp only [exceptOkBind] at h
      rcases h3 : pyInt e.terc with e3 | t
      · rw [h3] at h
        simp at h
      · rw [h3] at h
        simp only [exceptOkBind, pure, Except.pure] at h
        injection h with h
        subst h
        simp [UlicEntry.from_dict, Dct.getItem, dictGet, pySliceRange]

/-- `deserialize(serialize(x))` never succeeds for a street aggregate: an
empty aggregate fails `from_list`, and otherwise deserializing the first
member fails with `TypeError` on its integer-coerced `terc`. -/
theorem ulic_roundtrip_never_ok (m : UlicMultiEntry) (y : UlicMultiEntry) :
    ulicRoundTrip m ≠ .ok y := by
  intro h
  simp only [ulicRoundTrip] at h
  rcases ht : m.to_dict with e | payload
  · rw [ht] at h
    simp at h
  · rw [ht] at h
    simp only [exceptOkBind] at h
    simp only [UlicMultiEntry.to_dict] at ht
    rcases hall : m.entries.all (fun q => q.2.symul = m.symul) with _ | _
    · rw [hall] at ht
      simp [throw, throwThe, MonadExceptOf.throw] at ht
    · rw [hall] at ht
      simp only [Bool.not_true, if_neg] at ht
      rcases hsu : pyInt m.symul with e1 | su
      · rw [hsu] at ht
        simp at ht
      · rw [hsu] at ht
        simp only [exceptOkBind] at ht
        rcases hents : m.entries with _ | ⟨q, rest⟩
        · simp only [hents, ulicEntriesToDicts, exceptOkBind, pure,
            Except.pure] at ht
          injection ht with ht
          subst ht
          simp [UlicMultiEntry.from_dict, ulicDictsToEntries,
            UlicMultiEntry.from_list] at h
        · rw [hents] at ht
          simp only [ulicEntriesToDicts] at ht
          rcases hd : q.2.to_dict with e2 | d0
          · rw [hd] at ht
            simp at ht
          · rw [hd] at ht
            simp only [exceptOkBind] at ht
            rcases hds : ulicEntriesToDicts rest with e3 | ds
            · rw [hds] at ht
              simp at ht
            · rw [hds] at ht
              simp only [exceptOkBind, pure, Except.pure] at ht
              injection ht with ht
              subst ht
              simp [UlicMultiEntry.from_dict, ulicDictsToEntries,
                ulic_entry_from_to_dict_typeerror q.2 d0 hd] at h

/-- Claim C2 (counterexample): the round trip is not the identity.  For the
locality entry with code fields `terc = "0201011"`, `rm = "96"`,
`sym = "0982954"` the deserialized entry carries integers (leading zeros
lost) instead of the original fixed-width strings; for a base-tier
administrative unit deserialization fails with `TypeError` (keywords passed
to a constructor that accepts none), and for a province-level unit — whose
serialized form omits the `powiat` key — it fails with `KeyError` even
before that call. -/
theorem C2_roundtrip_counterexample :
    simcRoundTrip
        { terc := .str "0201011", rm_id := .str "96",
          nazwa := .str "Brodnica", sym := .str "0982954", parent := .none }
      = .ok { terc := .int 201011, rm_id := .int 96,
              nazwa := .str "Brodnica", sym := .int 982954, parent := .none }
  ∧ simcRoundTrip
        { terc := .str "0201011", rm_id := .str "96",
          nazwa := .str "Brodnica", sym := .str "0982954", parent := .none }
      ≠ .ok { terc := .str "0201011", rm_id := .str "96",
              nazwa := .str "Brodnica", sym := .str "0982954", parent := .none }
  ∧ tercRoundTrip
        (TercEntry.init
          [("woj", .str "02"), ("pow", .str "14"), ("gmi", .str "01"),
           ("rodz", .str "1"), ("nazwa", .str "Przykład")])
      = .error .typeError
  ∧ tercRoundTrip
        (TercEntry.init
          [("woj", .str "02"), ("nazwa", .str "DOLNOŚLĄSKIE")])
      = .error (.keyError "powiat") := by
  refine ⟨by decide, by decide, by decide, by decide⟩

/-- Claim C2 (amended): the cache serializer round-trips no catalog type
field-for-field.  For a locality entry it works only up to numeric coercion
— `deserialize(serialize(x))` preserves the name and the integer *values*
of the numeric fields but returns them as integers (dropping the
fixed-width string representation), so equality fails for catalog entries.
For administrative units and street aggregates `deserialize(serialize(x))`
never succeeds at all: the unit deserializer raises `KeyError` for
province- and county-level entries (whose serialized form omits the
`powiat`/`gmi` keys) and otherwise `TypeError` from the keyword call
against the positional-dict constructor; the aggregate deserializer raises
`TypeError` slicing the integer-coerced `terc` of its first member (or
`ValueError` for an empty aggregate). -/
theorem C2_roundtrip_amended (x : SimcEntry) (tv rv sv : Int)
    (ht : pyInt x.terc = .ok tv) (hr : pyInt x.rm_id = .ok rv)
    (hs : pyInt x.sym = .ok sv) :
    (x.parent.truthy = false →
        simcRoundTrip x
          = .ok { terc := .int tv, rm_id := .int rv, nazwa := x.nazwa,
                  sym := .int sv, parent := .none })
  ∧ (∀ pv : Int, x.parent.truthy = true → pyInt x.parent = .ok pv →
        simcRoundTrip x
          = .ok { terc := .int tv, rm_id := .int rv, nazwa := x.nazwa,
                  sym := .int sv, parent := .int pv })
  ∧ (∀ (t y : TercEntry), tercRoundTrip t ≠ .ok y)
  ∧ (∀ (u w : UlicMultiEntry), ulicRoundTrip u ≠ .ok w) := by
  refine ⟨?_, ?_, fun t y => terc_roundtrip_never_ok t y,
    fun u w => ulic_roundtrip_never_ok u w⟩
  · intro hp
    simp [simcRoundTrip, simcSerialize, simcDeserialize,
      SimcEntry.to_dict, SimcEntry.from_dict, Serializer.serialize,
      Serializer.deserialize, ht, hr, hs, hp,
      Dct.getItem, Dct.getD, Dct.get, Dct.hasKey, dictGet]
  · intro pv hp hpv
    simp [simcRoundTrip, simcSerialize, simcDeserialize,
      SimcEntry.to_dict, SimcEntry.from_dict, Serializer.serialize,
      Serializer.deserialize, ht, hr, hs, hp, hpv,
      Dct.getItem, Dct.getD, Dct.get, Dct.hasKey, dictGet]

/-- Witness for C2's amended round-trip characterization at the locality
entry for Brodnica. -/
theorem C2_roundtrip_amended_witness :
    simcRoundTrip
        { terc := .str "0401011", rm_id := .str "96",
          nazwa := .str "Brodnica", sym := .str "0928539",
          parent := .str "0928517" }
      = .ok { terc := .int 401011, rm_id := .int 96,
              nazwa := .str "Brodnica", sym := .int 928539,
              parent := .int 928517 } :=
  (C2_roundtrip_amended
      { terc := .str "0401011", rm_id := .str "96",
        nazwa := .str "Brodnica", sym := .str "0928539",
        parent := .str "0928517" }
      401011 96 928539 (by decide) (by decide) (by decide)).2.1
    928517 (by decide) (by decide)

/-- Claim C3 (counterexample): for the reserved name `meta` — a cache name
with no metadata entry — `get_cache` does not fail with `NotInitialized` as
the claim would require; it fails with the `InvalidName`-style `ValueError`
before ever reading the metadata. -/
theorem C3_meta_name_counterexample :
    ShelveCache.get (CacheManager.meta ⟨[], []⟩) "meta" Option.none
      = Option.none
  ∧ CacheManager.get_cache ⟨[], []⟩ "meta" Option.none
      = .error (.valueError "Forbidden cache name: meta") := by
  refine ⟨rfl, rfl⟩

/-- Claim C3 (amended): for every cache name other than the reserved name
`meta`, and any optional minimum version, `get_cache` fails with
`NotInitialized` when no metadata record exists for the name or its status
is not `ready`; fails with `Expired` when a nonzero minimum version is given
and the recorded version is an integer below it; and otherwise (no minimum
version requested, or the recorded version reaches it, provided the driver
table exists) returns the live cache bound to that name's table.  The
function only reads the manager state, so none of these outcomes has side
effects.  (`get_cache("meta", ...)` instead fails with the `InvalidName`
error, see the counterexample.) -/
theorem C3_get_cache_amended (m : CacheManager) (name : String)
    (version : Option Int) (hn : name ≠ "meta") :
    (ShelveCache.get m.meta name Option.none = Option.none →
        m.get_cache name version = .error (.cacheNotReady name))
  ∧ (∀ d s, ShelveCache.get m.meta name Option.none = some d →
        Dct.getItem d "status" = .ok s → s ≠ .str "ready" →
        m.get_cache name version = .error (.cacheNotReady name))
  ∧ (∀ d sv v, ShelveCache.get m.meta name Option.none = some d →
        Dct.getItem d "status" = .ok (.str "ready") →
        version = some v → v ≠ 0 →
        Dct.getItem d "version" = .ok (.int sv) → sv < v →
        m.get_cache name version = .error (.cacheExpired name (.int sv) v))
  ∧ (∀ d, ShelveCache.get m.meta name Option.none = some d →
        Dct.getItem d "status" = .ok (.str "ready") →
        name ∈ m.tables →
        (version = Option.none ∨ version = some 0 ∨
          (∃ v sv, version = some v ∧
            Dct.getItem d "version" = .ok (.int sv) ∧ v ≤ sv)) →
        m.get_cache name version = .ok name) := by
  refine ⟨?_, ?_, ?_, ?_⟩
  · intro h
    simp [CacheManager.get_cache, hn, h]
  · intro d st hd hst hne
    have hdne : d.isEmpty = false := by
      rcases d with _ | _
      · simp [Dct.getItem, dictGet] at hst
      · rfl
    simp [CacheManager.get_cache, hn, hd, hdne, hst, hne, throw, throwThe,
      MonadExceptOf.throw]
  · intro d sv v hd hst hv hvne hver hlt
    have hdne : d.isEmpty = false := by
      rcases d with _ | _
      · simp [Dct.getItem, dictGet] at hst
      · rfl
    subst hv
    simp [CacheManager.get_cache, hn, hd, hdne, hst, hvne, hver, pyGeInt,
      not_le.mpr hlt, throw, throwThe, MonadExceptOf.throw]
  · intro d hd hst htab hcase
    have hdne : d.isEmpty = false := by
      rcases d with _ | _
      · simp [Dct.getItem, dictGet] at hst
      · rfl
    rcases hcase with hv | hv | ⟨v, sv, hv, hver, hle⟩
    · subst hv
      simp [CacheManager.get_cache, hn, hd, hdne, hst,
        CacheManager.get_table, htab]
    · subst hv
      simp [CacheManager.get_cache, hn, hd, hdne, hst,
        CacheManager.get_table, htab]
    · subst hv
      by_cases hvz : v = 0
      · subst hvz
        simp [CacheManager.get_cache, hn, hd, hdne, hst,
          CacheManager.get_table, htab]
      · simp [CacheManager.get_cache, hn, hd, hdne, hst, hvz, hver, pyGeInt,
          hle, CacheManager.get_table, htab]

/-- Witness for C3's amended `get_cache` behaviour: a ready cache at version
10 is returned for a requested minimum of 10, and requesting 99 fails with
`Expired` carrying the stored version. -/
theorem C3_get_cache_witness :
    CacheManager.get_cache
        ⟨[("units", .payload [("status", .str "ready"), ("updated", .int 5),
                              ("version", .int 10)])], ["units"]⟩
        "units" (some 10) = .ok "units"
  ∧ CacheManager.get_cache
        ⟨[("units", .payload [("status", .str "ready"), ("updated", .int 5),
                              ("version", .int 10)])], ["units"]⟩
        "units" (some 99)
      = .error (.cacheExpired "units" (.int 10) 99) := by
  constructor
  · exact (C3_get_cache_amended
        ⟨[("units", .payload [("status", .str "ready"), ("updated", .int 5),
                              ("version", .int 10)])], ["units"]⟩
        "units" (some 10) (by decide)).2.2.2
      [("status", .str "ready"), ("updated", .int 5), ("version", .int 10)]
      (by decide) (by decide) (by decide)
      (Or.inr (Or.inr ⟨10, 10, rfl, by decide, by decide⟩))
  · exact (C3_get_cache_amended
        ⟨[("units", .payload [("status", .str "ready"), ("updated", .int 5),
                              ("version", .int 10)])], ["units"]⟩
        "units" (some 99) (by decide)).2.2.1
      [("status", .str "ready"), ("updated", .int 5), ("version", .int 10)]
      10 99
      (by decide) (by decide) rfl (by decide) (by decide) (by decide)

/-- Claim C1 (code bug exhibited): the spec says a stale cache is recovered
transparently — `get()` catches `Expired`, replays the delta once, retries
and succeeds.  In the code, `_cache_update` never advances the version
metadata (`mark_ready` is only called by `create_cache`), so the retried
version check fails with `Expired` again and `get()` recurses forever: at
the stale state, no recursion depth suffices for `get()` to return, even
though the probe fails exactly as the recovery path expects and the delta
replay itself succeeds. -/
theorem C1_get_never_returns_on_stale_cache :
    (∀ fuel : Nat,
        syncGet SimcCache.handlers "osm_teryt_simc_v1" fuel c1State
          = Option.none)
  ∧ CacheManager.get_cache ⟨c1State.meta, ["osm_teryt_simc_v1"]⟩
        "osm_teryt_simc_v1" (some 200)
      = .error (.cacheExpired "osm_teryt_simc_v1" (.int 100) 200)
  ∧ replay SimcCache.handlers c1State.table c1State.delta
      = .ok c1State.table := by
  refine ⟨?_, by decide, rfl⟩
  intro fuel
  induction fuel with
  | zero => rfl
  | succ n ih =>
      have hstep :
          syncGet SimcCache.handlers "osm_teryt_simc_v1" (n + 1) c1State
            = syncGet SimcCache.handlers "osm_teryt_simc_v1" n c1State := rfl
      rw [hstep]
      exact ih

/-- Claim C4 (code bug exhibited): for localities the Modify handler behaves
as claimed — an absent before-key fails with the modify-nonexistent error,
and a key-changing modify deletes the old key and installs the overlaid
entry under the new key, never retrievable at both.  For administrative
units, however, `_handle_m` crashes with `TypeError` before performing any
lookup: `TercEntry.from_dict` passes keyword arguments to a constructor that
accepts only a positional dictionary (and even past that point, an `after`
value for the county segment `pow` would land in a dead attribute, never in
the stored field). -/
theorem C4_modify_semantics :
    TerytCache.handle_m
        [(.str "0214011",
          TercEntry.init
            [("woj", .str "02"), ("pow", .str "14"), ("gmi", .str "01"),
             ("rodz", .str "1"), ("nazwa", .str "Przykład")])]
        { op := "M",
          before := [("woj", .str "02"), ("powiat", .str "14"),
                     ("gmi", .str "01"), ("rodz", .str "1"),
                     ("nazwadod", .str ""), ("nazwa", .str "Przykład")],
          after := [("pow", .str "15")] }
      = .error .typeError
  ∧ SimcCache.handle_z
        [(.str "0982954",
          { terc := .str "0214011", rm_id := .int 1,
            nazwa := .str "Przykład", sym := .str "0982954",
            parent := .none })]
        { op := "Z",
          before := [("terc", .str "0214011"), ("nazwa", .str "Przykład"),
                     ("sym", .str "0982954")],
          after := [("sym", .str "0982999"), ("nazwa", .str "Nowy")] }
      = .ok [(.str "0982999",
          { terc := .str "0214011", rm_id := .int 1, nazwa := .str "Nowy",
            sym := .str "0982999", parent := .none })]
  ∧ dictGet
        [((.str "0982999" : PyVal),
          ({ terc := .str "0214011", rm_id := .int 1, nazwa := .str "Nowy",
             sym := .str "0982999", parent := .none } : SimcEntry))]
        (.str "0982954") = Option.none
  ∧ SimcCache.handle_z []
        { op := "Z",
          before := [("terc", .str "0214011"), ("nazwa", .str "Przykład"),
                     ("sym", .str "0982954")],
          after := [("sym", .str "0982999"), ("nazwa", .str "Nowy")] }
      = .error (.valueError "Modification of non-existing record") := by
  refine ⟨by decide, by decide, by decide, by decide⟩

/-- Claim C6 (confirmed): replay applies records strictly in order; the first
record whose one-letter code is missing from the catalog's fixed handler
table makes the whole replay fail with the unknown-operation error naming
the code, and a replay can only succeed when every record's code had a
handler — no record is silently skipped. -/
theorem C6_unknown_operation {ε : Type} (handlers : HandlerTable ε)
    (cache c₁ : CacheMap ε) (pre post : List ChangeRecord) (r : ChangeRecord)
    (h₁ : replay handlers cache pre = .ok c₁)
    (h₂ : dictGet handlers r.op = Option.none) :
    replay handlers cache (pre ++ r :: post)
      = .error (.valueError ("Unkown TypKorekty: " ++ r.op))
  ∧ ∀ (cache' c' : CacheMap ε) (rs : List ChangeRecord),
      replay handlers cache' rs = .ok c' →
      ∀ s ∈ rs, (dictGet handlers s.op).isSome := by
  constructor
  · induction pre generalizing cache with
    | nil =>
        simp only [List.nil_append, replay, h₂]
    | cons p ps ih =>
        simp only [List.cons_append, replay] at h₁ ⊢
        rcases hh : dictGet handlers p.op with _ | h
        · rw [hh] at h₁
          exact absurd h₁ (by simp)
        · rw [hh] at h₁
          dsimp only at h₁ ⊢
          rcases hr : h cache p with e | c''
          · rw [hr] at h₁
            exact absurd h₁ (by simp)
          · rw [hr] at h₁
            dsimp only at h₁ ⊢
            exact ih _ h₁
  · intro cache' c' rs
    induction rs generalizing cache' with
    | nil => intro _ s hs; simp at hs
    | cons p ps ih =>
        intro hrep s hs
        simp only [replay] at hrep
        rcases hh : dictGet handlers p.op with _ | h
        · rw [hh] at hrep
          exact absurd hrep (by simp)
        · rw [hh] at hrep
          dsimp only at hrep
          rcases hr : h cache' p with e | c''
          · rw [hr] at hrep
            exact absurd hrep (by simp)
          · rw [hr] at hrep
            dsimp only at hrep
            rcases List.mem_cons.mp hs with hs | hs
            · subst hs
              simp [hh]
            · exact ih c'' hrep s hs

/-- Witness for C6: replaying a single record with the unknown code `"X"`
against the (empty) locality cache fails with the unknown-operation error
naming `X`. -/
theorem C6_unknown_operation_witness :
    replay SimcCache.handlers []
        [{ op := "X", before := [], after := [] }]
      = .error (.valueError "Unkown TypKorekty: X") :=
  (C6_unknown_operation SimcCache.handlers [] [] []
      [] { op := "X", before := [], after := [] } rfl rfl).1

/-- The in-memory removal logic of `_handle_u`, over the idealized
entity-valued cache: removing a member deletes the whole aggregate when no
member remains, and otherwise writes the aggregate back with exactly that
member removed.  (Over the real serialized store this code path is
unreachable: every deserializing read of a stored aggregate raises, as the
serializer-faithful evaluation below shows.) -/
theorem ulic_remove_inmemory (m : CacheMap UlicMultiEntry) (r : ChangeRecord)
    (old : UlicEntry) (agg : UlicMultiEntry)
    (h₀ : UlicEntry.from_update r.before = .ok old)
    (h₁ : dictGet m old.symul = some agg)
    (h₂ : agg.symul = old.symul)
    (h₃ : (dictGet agg.entries old.sym).isSome) :
    (dictEraseKey agg.entries old.sym = [] →
        UlicCache.handle_u m r = .ok (dictEraseKey m old.symul)
      ∧ dictGet (dictEraseKey m old.symul) old.symul = Option.none)
  ∧ (dictEraseKey agg.entries old.sym ≠ [] →
        UlicCache.handle_u m r
          = .ok (dictSet m old.symul
              { agg with entries := dictEraseKey agg.entries old.sym })
      ∧ dictGet (dictSet m old.symul
            { agg with entries := dictEraseKey agg.entries old.sym })
          old.symul
        = some { agg with entries := dictEraseKey agg.entries old.sym }) := by
  obtain ⟨oldE, he⟩ := Option.isSome_iff_exists.mp h₃
  constructor
  · intro hemp
    refine ⟨?_, dictGet_dictEraseKey_self m old.symul⟩
    simp [UlicCache.handle_u, h₀, h₁, UlicMultiEntry.remove_by_sym, he,
      hemp, cacheDelete, List.isEmpty_iff]
  · intro hne
    refine ⟨?_, ?_⟩
    · simp [UlicCache.handle_u, h₀, h₁, UlicMultiEntry.remove_by_sym, he,
        List.isEmpty_iff, hne, h₂, pure, Except.pure]
    · exact dictGet_dictSet_self m old.symul _

/-- `ulic_remove_inmemory` at the aggregate `"21447"` with members
`"0982954"` and `"0982955"`: in memory, removing the first member leaves the
aggregate with only the second. -/
theorem ulic_remove_inmemory_example :
    UlicCache.handle_u
        [(.str "21447",
          { symul := .str "21447", cecha := "Ulica", nazwa := "18 Stycznia",
            entries :=
              [(.str "0982954",
                { sym := .str "0982954", symul := .str "21447",
                  cecha_orig := .str "ul.", nazwa_1 := .str "Stycznia",
                  nazwa_2 := .str "18", terc := .str "0402011",
                  sym_ul_attr := .none }),
               (.str "0982955",
                { sym := .str "0982955", symul := .str "21447",
                  cecha_orig := .str "ul.", nazwa_1 := .str "Stycznia",
                  nazwa_2 := .str "18", terc := .str "0402011",
                  sym_ul_attr := .none })] })]
        { op := "U",
          before :=
            [("woj", .str "04"), ("pow", .str "02"), ("gmi", .str "01"),
             ("rodz", .str "1"),
             ("identyfikatormiejscowosci", .str "0982954"),
             ("identyfikatornazwyulicy", .str "21447"),
             ("cecha", .str "ul."), ("nazwa1", .str "Stycznia"),
             ("nazwa2", .str "18")],
          after := [] }
      = .ok [(.str "21447",
          { symul := .str "21447", cecha := "Ulica", nazwa := "18 Stycznia",
            entries :=
              [(.str "0982955",
                { sym := .str "0982955", symul := .str "21447",
                  cecha_orig := .str "ul.", nazwa_1 := .str "Stycznia",
                  nazwa_2 := .str "18", terc := .str "0402011",
                  sym_ul_attr := .none })] })] :=
  ((ulic_remove_inmemory _ _
      { sym := .str "0982954", symul := .str "21447",
        cecha_orig := .str "ul.", nazwa_1 := .str "Stycznia",
        nazwa_2 := .str "18", terc := .str "0402011",
        sym_ul_attr := .none }
      { symul := .str "21447", cecha := "Ulica", nazwa := "18 Stycznia",
        entries :=
          [(.str "0982954",
            { sym := .str "0982954", symul := .str "21447",
              cecha_orig := .str "ul.", nazwa_1 := .str "Stycznia",
              nazwa_2 := .str "18", terc := .str "0402011",
              sym_ul_attr := .none }),
           (.str "0982955",
            { sym := .str "0982955", symul := .str "21447",
              cecha_orig := .str "ul.", nazwa_1 := .str "Stycznia",
              nazwa_2 := .str "18", terc := .str "0402011",
              sym_ul_attr := .none })] }
      (by decide) (by decide) (by decide) (by decide)).2 (by decide)).1

/-- Claim C5 (code bug exhibited): the claimed Remove semantics are
unreachable in the program.  Storing the two-member aggregate `"21447"`
writes the serialized payload shown (first conjunct); `cache.get` then
deserializes that payload on every read, and `UlicEntry.from_dict` slices
the integer-coerced `terc` the serializer wrote, so retrieving the stored
aggregate raises `TypeError` (second conjunct) and the Remove handler over
the real store crashes before removing anything (third conjunct).  The
in-memory removal logic itself matches the claim (fourth conjunct) — the
failure is the entity codec, which the repository's own serializer test
expects to round-trip. -/
theorem C5_street_remove_unreachable :
    UlicMultiEntry.to_dict
        { symul := .str "21447", cecha := "Ulica", nazwa := "Ulica 18 Stycznia",
          entries :=
            [(.str "0982954",
              { sym := .str "0982954", symul := .str "21447",
                cecha_orig := .str "ul.", nazwa_1 := .str "Stycznia",
                nazwa_2 := .str "18", terc := .str "0402011",
                sym_ul_attr := .none }),
             (.str "0982955",
              { sym := .str "0982955", symul := .str "21447",
                cecha_orig := .str "ul.", nazwa_1 := .str "Stycznia",
                nazwa_2 := .str "18", terc := .str "0402011",
                sym_ul_attr := .none })] }
      = .ok ([("symul", .int 21447), ("cecha", .str "Ulica"),
              ("nazwa", .str "Ulica 18 Stycznia")],
             [[("sym", .int 982954), ("symul", .int 21447),
               ("cecha", .str "ul."), ("nazwa_1", .str "Stycznia"),
               ("nazwa_2", .str "18"), ("terc", .int 402011)],
              [("sym", .int 982955), ("symul", .int 21447),
               ("cecha", .str "ul."), ("nazwa_1", .str "Stycznia"),
               ("nazwa_2", .str "18"), ("terc", .int 402011)]])
  ∧ ulicStoreGet
        [(.str "21447",
          ([("symul", .int 21447), ("cecha", .str "Ulica"),
            ("nazwa", .str "Ulica 18 Stycznia")],
           [[("sym", .int 982954), ("symul", .int 21447),
             ("cecha", .str "ul."), ("nazwa_1", .str "Stycznia"),
             ("nazwa_2", .str "18"), ("terc", .int 402011)],
            [("sym", .int 982955), ("symul", .int 21447),
             ("cecha", .str "ul."), ("nazwa_1", .str "Stycznia"),
             ("nazwa_2", .str "18"), ("terc", .int 402011)]]))]
        (.str "21447")
      = .error .typeError
  ∧ UlicCache.handle_u_stored
        [(.str "21447",
          ([("symul", .int 21447), ("cecha", .str "Ulica"),
            ("nazwa", .str "Ulica 18 Stycznia")],
           [[("sym", .int 982954), ("symul", .int 21447),
             ("cecha", .str "ul."), ("nazwa_1", .str "Stycznia"),
             ("nazwa_2", .str "18"), ("terc", .int 402011)],
            [("sym", .int 982955), ("symul", .int 21447),
             ("cecha", .str "ul."), ("nazwa_1", .str "Stycznia"),
             ("nazwa_2", .str "18"), ("terc", .int 402011)]]))]
        { op := "U",
          before :=
            [("woj", .str "04"), ("pow", .str "02"), ("gmi", .str "01"),
             ("rodz", .str "1"),
             ("identyfikatormiejscowosci", .str "0982954"),
             ("identyfikatornazwyulicy", .str "21447"),
             ("cecha", .str "ul."), ("nazwa1", .str "Stycznia"),
             ("nazwa2", .str "18")],
          after := [] }
      = .error .typeError
  ∧ UlicCache.handle_u
        [(.str "21447",
          { symul := .str "21447", cecha := "Ulica", nazwa := "Ulica 18 Stycznia",
            entries :=
              [(.str "0982954",
                { sym := .str "0982954", symul := .str "21447",
                  cecha_orig := .str "ul.", nazwa_1 := .str "Stycznia",
                  nazwa_2 := .str "18", terc := .str "0402011",
                  sym_ul_attr := .none }),
               (.str "0982955",
                { sym := .str "0982955", symul := .str "21447",
                  cecha_orig := .str "ul.", nazwa_1 := .str "Stycznia",
                  nazwa_2 := .str "18", terc := .str "0402011",
                  sym_ul_attr := .none })] })]
        { op := "U",
          before :=
            [("woj", .str "04"), ("pow", .str "02"), ("gmi", .str "01"),
             ("rodz", .str "1"),
             ("identyfikatormiejscowosci", .str "0982954"),
             ("identyfikatornazwyulicy", .str "21447"),
             ("cecha", .str "ul."), ("nazwa1", .str "Stycznia"),
             ("nazwa2", .str "18")],
          after := [] }
      = .ok [(.str "21447",
          { symul := .str "21447", cecha := "Ulica", nazwa := "Ulica 18 Stycznia",
            entries :=
              [(.str "0982955",
                { sym := .str "0982955", symul := .str "21447",
                  cecha_orig := .str "ul.", nazwa_1 := .str "Stycznia",
                  nazwa_2 := .str "18", terc := .str "0402011",
                  sym_ul_attr := .none })] })] := by
  refine ⟨by decide, by decide, rfl, by decide⟩

theorem ulicInv_lookup {m : CacheMap UlicMultiEntry} {k : PyVal}
    {agg : UlicMultiEntry} (hm : UlicInv m) (h : dictGet m k = some agg) :
    agg.symul = k ∧ agg.entries ≠ [] ∧
      ∀ q ∈ agg.entries, q.2.symul = agg.symul :=
  hm (k, agg) (dictGet_mem h)

theorem ulicInv_erase {m : CacheMap UlicMultiEntry} (k : PyVal)
    (hm : UlicInv m) : UlicInv (dictEraseKey m k) :=
  fun p hp => hm p (mem_dictEraseKey hp)

theorem ulicInv_insert {m : CacheMap UlicMultiEntry} {k : PyVal}
    {agg : UlicMultiEntry} (hm : UlicInv m) (hk : agg.symul = k)
    (hne : agg.entries ≠ [])
    (hmem : ∀ q ∈ agg.entries, q.2.symul = agg.symul) :
    UlicInv (dictSet m k agg) := by
  intro p hp
  rcases mem_dictSet hp with hp | hp
  · exact hm p hp
  · subst hp
    exact ⟨hk, hne, hmem⟩

theorem dictSet_ne_nil {κ ν : Type} [DecidableEq κ]
    (l : List (κ × ν)) (k : κ) (v : ν) : dictSet l k v ≠ [] := by
  rcases l with _ | ⟨⟨k', v'⟩, rest⟩
  · simp [dictSet]
  · by_cases h : k' = k <;> simp [dictSet, h]

theorem mem_dictSet_symul {l : List (PyVal × UlicEntry)} {k : PyVal}
    {v : UlicEntry} {s : PyVal}
    (hall : ∀ q ∈ l, q.2.symul = s) (hv : v.symul = s) :
    ∀ q ∈ dictSet l k v, q.2.symul = s := by
  intro q hq
  rcases mem_dictSet hq with hq | hq
  · exact hall q hq
  · subst hq
    exact hv

/-- `UlicEntry.update_from` never changes the stored street symbol: the
attribute loop writes `sym_ul` to a dead attribute, so a successful update
leaves `symul` as it was. -/
theorem update_from_symul (e : UlicEntry) (d : Dct) (e' : UlicEntry)
    (h : UlicEntry.update_from e d = .ok e') : e'.symul = e.symul := by
  simp only [UlicEntry.update_from] at h
  repeat' split at h
  all_goals try simp_all
  all_goals (subst h; rfl)

/-- A successful `add_entry` means the street symbols agreed, and the result
is the aggregate with the member stored under its locality symbol. -/
theorem add_entry_ok (m : UlicMultiEntry) (v : UlicEntry)
    (m' : UlicMultiEntry) (h : m.add_entry v = .ok m') :
    m.symul = v.symul
      ∧ m' = { m with entries := dictSet m.entries v.sym v } := by
  by_cases hs : m.symul = v.symul
  · refine ⟨hs, ?_⟩
    rcases hc : v.cecha with ec | c
    · simp [UlicMultiEntry.add_entry, hs, hc] at h
    · rcases hn : v.nazwa with en | n
      · simp [UlicMultiEntry.add_entry, hs, hc, hn] at h
      · simp [UlicMultiEntry.add_entry, hs, hc, hn, pure, Except.pure] at h
        rw [hs]
        exact h.symm
  · exfalso
    simp [UlicMultiEntry.add_entry, hs, throw, throwThe,
      MonadExceptOf.throw] at h

/-- Rejection half of the aggregate invariant: `add_entry` with a differing
street symbol raises `ValueError` and stores nothing. -/
theorem add_entry_mismatch (m : UlicMultiEntry) (v : UlicEntry)
    (h : m.symul ≠ v.symul) :
    m.add_entry v = .error (.valueError "Symul different than expected") := by
  simp [UlicMultiEntry.add_entry, h, throw, throwThe, MonadExceptOf.throw]

/-- A successful `UlicMultiEntry(entry)` construction copies the member's
street symbol and starts the member map with that single entry. -/
theorem ofEntry_shape (e : UlicEntry) (m : UlicMultiEntry)
    (h : UlicMultiEntry.ofEntry e = .ok m) :
    m.symul = e.symul ∧ m.entries = [(e.sym, e)] := by
  rcases hc : e.cecha with ec | c
  · simp [UlicMultiEntry.ofEntry, hc] at h
  · rcases hn : e.nazwa with en | n
    · simp [UlicMultiEntry.ofEntry, hc, hn] at h
    · simp [UlicMultiEntry.ofEntry, hc, hn, pure, Except.pure] at h
      subst h
      exact ⟨rfl, rfl⟩

/-- A successful `remove_by_sym` erases exactly that member. -/
theorem remove_by_sym_ok (m : UlicMultiEntry) (s : PyVal)
    (m' : UlicMultiEntry) (h : m.remove_by_sym s = .ok m') :
    m' = { m with entries := dictEraseKey m.entries s } := by
  rcases hg : dictGet m.entries s with _ | e
  · simp [UlicMultiEntry.remove_by_sym, hg] at h
  · simp [UlicMultiEntry.remove_by_sym, hg] at h
    exact h.symm

/-- A successful `get_by_sym` returns a member of the aggregate. -/
theorem get_by_sym_mem (m : UlicMultiEntry) (s : PyVal) (e : UlicEntry)
    (h : m.get_by_sym s = .ok e) : (s, e) ∈ m.entries := by
  rcases hg : dictGet m.entries s with _ | e'
  · simp [UlicMultiEntry.get_by_sym, hg] at h
  · simp [UlicMultiEntry.get_by_sym, hg] at h
    subst h
    exact dictGet_mem hg

/-- The member-update loop preserves length, keys and every member's street
symbol. -/
theorem ulicUpdateAll_spec (ents : List (PyVal × UlicEntry)) (after : Dct)
    (ents' : List (PyVal × UlicEntry))
    (h : ulicUpdateAll ents after = .ok ents') :
    ents'.length = ents.length
      ∧ ∀ q' ∈ ents', ∃ q ∈ ents, q'.1 = q.1 ∧ q'.2.symul = q.2.symul := by
  induction ents generalizing ents' with
  | nil =>
      simp only [ulicUpdateAll] at h
      injection h with h
      subst h
      exact ⟨rfl, by simp⟩
  | cons p rest ih =>
      obtain ⟨k, e⟩ := p
      simp only [ulicUpdateAll] at h
      rcases hu : e.update_from after with eu | e'
      · rw [hu] at h
        exact absurd h (by simp)
      · rw [hu] at h
        simp only [exceptOkBind] at h
        rcases hr : ulicUpdateAll rest after with er | rest'
        · rw [hr] at h
          exact absurd h (by simp)
        · rw [hr] at h
          simp only [exceptOkBind, pure, Except.pure] at h
          injection h with h
          subst h
          obtain ⟨hlen, hmem⟩ := ih rest' hr
          refine ⟨by simp [hlen], ?_⟩
          intro q' hq'
          rcases List.mem_cons.mp hq' with hq' | hq'
          · subst hq'
            exact ⟨(k, e), List.mem_cons_self _ _,
              rfl, update_from_symul e after e' hu⟩
          · obtain ⟨q, hq, hk, hsym⟩ := hmem q' hq'
            exact ⟨q, List.mem_cons_of_mem _ hq, hk, hsym⟩

theorem mem_of_getLastEq {α : Type} :
    ∀ {l : List α} {a : α}, l.getLast? = some a → a ∈ l
  | [], _, h => by simp at h
  | [x], a, h => by
      simp only [List.getLast?_singleton, Option.some.injEq] at h
      simp [h]
  | x :: y :: ys, a, h => by
      rw [List.getLast?_cons_cons] at h
      exact List.mem_cons_of_mem _ (mem_of_getLastEq h)

theorem handle_d_inv (cache : CacheMap UlicMultiEntry) (r : ChangeRecord)
    (m' : CacheMap UlicMultiEntry) (hm : UlicInv cache)
    (h : UlicCache.handle_d cache r = .ok m') : UlicInv m' := by
  simp only [UlicCache.handle_d] at h
  rcases hf : UlicEntry.from_update r.after with ef | to_
  · rw [hf] at h
    exact absurd h (by simp)
  · rw [hf] at h
    simp only [exceptOkBind] at h
    rcases hg : dictGet cache to_.symul with _ | agg
    · rw [hg] at h
      dsimp only at h
      rcases ho : UlicMultiEntry.ofEntry to_ with eo | fresh
      · rw [ho] at h
        exact absurd h (by simp)
      · rw [ho] at h
        simp only [exceptOkBind, pure, Except.pure] at h
        injection h with h
        subst h
        obtain ⟨hsy, hent⟩ := ofEntry_shape to_ fresh ho
        refine ulicInv_insert hm hsy ?_ ?_
        · rw [hent]
          simp
        · intro q hq
          rw [hent] at hq
          rcases List.mem_singleton.mp hq with rfl
          simp [hsy]
    · rw [hg] at h
      dsimp only at h
      rcases ha : agg.add_entry to_ with ea | agg'
      · rw [ha] at h
        exact absurd h (by simp)
      · rw [ha] at h
        simp only [exceptOkBind, pure, Except.pure] at h
        injection h with h
        subst h
        obtain ⟨hseq, hagg'⟩ := add_entry_ok agg to_ agg' ha
        obtain ⟨hks, hne0, hmem⟩ := ulicInv_lookup hm hg
        subst hagg'
        refine ulicInv_insert hm hks (dictSet_ne_nil _ _ _) ?_
        exact mem_dictSet_symul hmem hseq.symm

theorem handle_u_inv (cache : CacheMap UlicMultiEntry) (r : ChangeRecord)
    (m' : CacheMap UlicMultiEntry) (hm : UlicInv cache)
    (h : UlicCache.handle_u cache r = .ok m') : UlicInv m' := by
  simp only [UlicCache.handle_u] at h
  rcases hf : UlicEntry.from_update r.before with ef | old
  · rw [hf] at h
    exact absurd h (by simp)
  · rw [hf] at h
    simp only [exceptOkBind] at h
    rcases hg : dictGet cache old.symul with _ | agg
    · rw [hg] at h
      dsimp only at h
      exact absurd h (by simp [throw, throwThe, MonadExceptOf.throw])
    · rw [hg] at h
      dsimp only at h
      rcases hr : agg.remove_by_sym old.sym with er | agg'
      · rw [hr] at h
        exact absurd h (by simp)
      · rw [hr] at h
        simp only [exceptOkBind] at h
        have hsh := remove_by_sym_ok agg old.sym agg' hr
        obtain ⟨hks, hne0, hmem⟩ := ulicInv_lookup hm hg
        subst hsh
        rcases hie : (dictEraseKey agg.entries old.sym).isEmpty with _ | _
        · simp only [hie, Bool.false_eq_true, if_false, pure,
            Except.pure] at h
          injection h with h
          subst h
          refine ulicInv_insert hm rfl ?_ ?_
          · simpa [List.isEmpty_iff] using hie
          · intro q hq
            exact hmem q (mem_dictEraseKey hq)
        · simp only [hie, if_true] at h
          simp only [cacheDelete, hg] at h
          injection h with h
          subst h
          exact ulicInv_erase old.symul hm

theorem handle_m_inv (cache : CacheMap UlicMultiEntry) (r : ChangeRecord)
    (m' : CacheMap UlicMultiEntry) (hm : UlicInv cache)
    (h : UlicCache.handle_m cache r = .ok m') : UlicInv m' := by
  simp only [UlicCache.handle_m] at h
  rcases hf : UlicEntry.from_update r.before with ef | old
  · rw [hf] at h
    exact absurd h (by simp)
  · rw [hf] at h
    simp only [exceptOkBind] at h
    rcases ht : old.symul.truthy with _ | _
    · simp only [ht, Bool.false_eq_true, if_false] at h
      exact absurd h (by simp [throw, throwThe, MonadExceptOf.throw])
    · simp only [ht, if_true] at h
      rcases hg : dictGet cache old.symul with _ | agg
      · rw [hg] at h
        dsimp only at h
        exact absurd h (by simp [throw, throwThe, MonadExceptOf.throw])
      · rw [hg] at h
        dsimp only at h
        rcases hgb : agg.get_by_sym old.sym with eg | ul
        · rw [hgb] at h
          exact absurd h (by simp)
        · rw [hgb] at h
          simp only [exceptOkBind] at h
          rcases hu : ul.update_from r.after with eu | ul'
          · rw [hu] at h
            exact absurd h (by simp)
          · rw [hu] at h
            simp only [exceptOkBind] at h
            obtain ⟨hks, hne0, hmem⟩ := ulicInv_lookup hm hg
            have hulm : (old.sym, ul) ∈ agg.entries :=
              get_by_sym_mem agg old.sym ul hgb
            have huls : ul.symul = agg.symul := hmem _ hulm
            have hul's : ul'.symul = old.symul := by
              rw [update_from_symul ul r.after ul' hu, huls, hks]
            rw [if_neg (by simp [hul's])] at h
            simp only [pure, Except.pure] at h
            injection h with h
            subst h
            refine ulicInv_insert hm rfl (dictSet_ne_nil _ _ _) ?_
            exact mem_dictSet_symul hmem (hul's.trans hks.symm)

theorem handle_z_inv (cache : CacheMap UlicMultiEntry) (r : ChangeRecord)
    (m' : CacheMap UlicMultiEntry) (hm : UlicInv cache)
    (h : UlicCache.handle_z cache r = .ok m') : UlicInv m' := by
  simp only [UlicCache.handle_z] at h
  rcases hf : UlicEntry.from_update r.before with ef | old
  · rw [hf] at h
    exact absurd h (by simp)
  · rw [hf] at h
    simp only [exceptOkBind] at h
    rcases hg : dictGet cache old.symul with _ | agg
    · rw [hg] at h
      dsimp only at h
      exact absurd h (by simp [throw, throwThe, MonadExceptOf.throw])
    · rw [hg] at h
      dsimp only at h
      rcases hua : ulicUpdateAll agg.entries r.after with ea | ents'
      · rw [hua] at h
        exact absurd h (by simp)
      · rw [hua] at h
        simp only [exceptOkBind] at h
        rcases hl : ents'.getLast? with _ | ⟨k, last⟩
        · rw [hl] at h
          dsimp only at h
          exact absurd h (by simp [throw, throwThe, MonadExceptOf.throw])
        · rw [hl] at h
          dsimp only at h
          rcases hc : last.cecha with ec | c
          · rw [hc] at h
            exact absurd h (by simp)
          · rw [hc] at h
            simp only [exceptOkBind] at h
            rcases hn : last.nazwa with en | n
            · rw [hn] at h
              exact absurd h (by simp)
            · rw [hn] at h
              simp only [exceptOkBind, pure, Except.pure] at h
              injection h with h
              subst h
              obtain ⟨hks, hne0, hmem⟩ := ulicInv_lookup hm hg
              obtain ⟨hlen, hmm⟩ := ulicUpdateAll_spec agg.entries r.after
                ents' hua
              have hlmem : (k, last) ∈ ents' := mem_of_getLastEq hl
              obtain ⟨q, hq, _, hqs⟩ := hmm (k, last) hlmem
              have hlsym : last.symul = agg.symul := hqs.trans (hmem q hq)
              refine ulicInv_insert hm rfl (List.ne_nil_of_mem hlmem) ?_
              intro q' hq'
              obtain ⟨q₀, hq₀, _, hq₀s⟩ := hmm q' hq'
              show q'.2.symul = last.symul
              rw [hq₀s.trans (hmem q₀ hq₀), hlsym]

theorem ulic_handler_cases (op : String)
    (h : CacheMap UlicMultiEntry → ChangeRecord →
      Except PyErr (CacheMap UlicMultiEntry))
    (hh : dictGet UlicCache.handlers op = some h) :
    h = UlicCache.handle_d ∨ h = UlicCache.handle_m ∨
      h = UlicCache.handle_u ∨ h = UlicCache.handle_z := by
  simp only [UlicCache.handlers, dictGet] at hh
  repeat' split at hh
  all_goals simp_all

/-- Invariant preservation along a whole delta replay of the street catalog:
if every aggregate in the cache satisfies the street-symbol invariant and
the replay succeeds, every aggregate of the resulting cache does too. -/
theorem ulic_replay_inv (cache m' : CacheMap UlicMultiEntry)
    (rs : List ChangeRecord) (hm : UlicInv cache)
    (h : replay UlicCache.handlers cache rs = .ok m') : UlicInv m' := by
  induction rs generalizing cache with
  | nil =>
      simp only [replay] at h
      injection h with h
      subst h
      exact hm
  | cons r rest ih =>
      simp only [replay] at h
      rcases hh : dictGet UlicCache.handlers r.op with _ | hd
      · rw [hh] at h
        exact absurd h (by simp)
      · rw [hh] at h
        dsimp only at h
        rcases hr : hd cache r with e | c''
        · rw [hr] at h
          exact absurd h (by simp)
        · rw [hr] at h
          dsimp only at h
          have hc'' : UlicInv c'' := by
            rcases ulic_handler_cases r.op hd hh with h4 | h4 | h4 | h4 <;>
              subst h4
            · exact handle_d_inv cache r c'' hm hr
            · exact handle_m_inv cache r c'' hm hr
            · exact handle_u_inv cache r c'' hm hr
            · exact handle_z_inv cache r c'' hm hr
          exact ih c'' hc'' h

/-- Claim C8 (confirmed): the street-symbol invariant — every member record
of a stored aggregate carries the aggregate's street symbol — is preserved
by any successful delta replay of the street catalog, so it holds for every
aggregate a reader can retrieve outside a replay in progress; and adding a
member whose street symbol differs from the aggregate's is rejected with
`ValueError` rather than stored. -/
theorem C8_street_symbol_invariant (m m' : CacheMap UlicMultiEntry)
    (rs : List ChangeRecord) (hm : UlicInv m)
    (h : replay UlicCache.handlers m rs = .ok m') :
    UlicInv m'
  ∧ ∀ (agg : UlicMultiEntry) (v : UlicEntry), agg.symul ≠ v.symul →
      agg.add_entry v
        = .error (.valueError "Symul different than expected") :=
  ⟨ulic_replay_inv m m' rs hm h,
   fun agg v hne => add_entry_mismatch agg v hne⟩

/-- Witness for C8: replaying one street `D` record against the empty cache
yields a cache satisfying the invariant, and adding a member with street
symbol `"99999"` to an aggregate keyed `"21447"` is rejected. -/
theorem C8_street_symbol_invariant_witness :
    UlicInv [((.str "21447" : PyVal),
      ({ symul := .str "21447", cecha := "Ulica", nazwa := "Ulica 18 Stycznia",
         entries :=
           [(.str "0982954",
             { sym := .str "0982954", symul := .str "21447",
               cecha_orig := .str "ul.", nazwa_1 := .str "Stycznia",
               nazwa_2 := .str "18", terc := .str "0402011",
               sym_ul_attr := .none })] } : UlicMultiEntry))]
  ∧ UlicMultiEntry.add_entry
      { symul := .str "21447", cecha := "Ulica", nazwa := "Ulica 18 Stycznia",
        entries :=
          [(.str "0982954",
            { sym := .str "0982954", symul := .str "21447",
              cecha_orig := .str "ul.", nazwa_1 := .str "Stycznia",
              nazwa_2 := .str "18", terc := .str "0402011",
              sym_ul_attr := .none })] }
      { sym := .str "0982955", symul := .str "99999",
        cecha_orig := .str "ul.", nazwa_1 := .str "Stycznia",
        nazwa_2 := .str "18", terc := .str "0402011",
        sym_ul_attr := .none }
    = .error (.valueError "Symul different than expected") := by
  have happ := C8_street_symbol_invariant []
    [((.str "21447" : PyVal),
      ({ symul := .str "21447", cecha := "Ulica", nazwa := "Ulica 18 Stycznia",
         entries :=
           [(.str "0982954",
             { sym := .str "0982954", symul := .str "21447",
               cecha_orig := .str "ul.", nazwa_1 := .str "Stycznia",
               nazwa_2 := .str "18", terc := .str "0402011",
               sym_ul_attr := .none })] } : UlicMultiEntry))]
    [{ op := "D",
       before := [],
       after :=
         [("woj", .str "04"), ("pow", .str "02"), ("gmi", .str "01"),
          ("rodz", .str "1"),
          ("identyfikatormiejscowosci", .str "0982954"),
          ("identyfikatornazwyulicy", .str "21447"),
          ("cecha", .str "ul."), ("nazwa1", .str "Stycznia"),
          ("nazwa2", .str "18")] }]
    (by intro p hp; simp at hp)
    (by decide)
  exact ⟨happ.1,
    happ.2 _ _ (by decide)⟩
